import Mathlib

/-!
Verification development for the realtime-switch-v2 repository.

The repository is a realtime voice-AI gateway split into a front-end
gateway (pack-server) and a back-end datastore (pack-db) talking over a
pipe-delimited framed string protocol (pack-shared).  This file gives a
shallow embedding of the components the checked claims are about:

* the wire codec (`ZmqUtils.decodeRequest`),
* the usage repository's cascading credit deduction
  (`SQLiteAccountRepo.insertUsage`),
* the session load queries (inner join of `SQLiteAccountRepo`
  and left join of `SQLSessionRepo`) and the business service
  (`AccountServiceImpl.validateAndLoad`),
* the migration runner (`Migrator.runAll`) and the four schema
  migrations,
* the gateway-side usage batching (`UsageHandler`),
* the gateway-side conversation checkpointing (`CheckpointHandler`),
* the per-session `Orchestrator` callbacks, and
* the upstream `OpenAIConnection`.

JavaScript strings are embedded as `List Char`; JS `indexOf`,
`startsWith`, `slice`, `split` and the hand written digit scans are
reproduced char by char.  Fallible operations return `Option`.
-/

namespace RS

/-- JS strings, embedded as lists of characters. -/
abbrev JStr := List Char

/-- Boolean "is initial segment" test on character lists.
Used to embed JS `String.startsWith` and the per-position test
inside `indexOf`. -/
def isPrefLC : JStr → JStr → Bool
  | [], _ => true
  | _ :: _, [] => false
  | a :: as, b :: bs => a == b && isPrefLC as bs

/-- JS `s.indexOf(pat)`: index of the first occurrence of `pat` in `s`,
`none` for JS's `-1`. -/
def findSub (pat : JStr) : JStr → Option Nat
  | [] => if isPrefLC pat [] then some 0 else none
  | s@(_ :: rest) =>
    if isPrefLC pat s then some 0 else (findSub pat rest).map (· + 1)

/-- JS `s.indexOf(pat, start)`: first occurrence at index ≥ `start`. -/
def findSubFrom (pat : JStr) (s : JStr) (start : Nat) : Option Nat :=
  (findSub pat (s.drop start)).map (· + start)

/-- JS `s.startsWith(pat)`. -/
def startsWithLC (s pat : JStr) : Bool := isPrefLC pat s

/-- JS `s.includes(pat)` / `s.indexOf(pat) !== -1`. -/
def containsLC (s pat : JStr) : Bool := (findSub pat s).isSome

/-- JS `s.slice(a, b)` for `0 ≤ a ≤ b` (the only uses in the scans). -/
def sliceLC (s : JStr) (a b : Nat) : JStr := (s.drop a).take (b - a)

/-- The ASCII-digit test `48 ≤ charCodeAt ∧ charCodeAt ≤ 57` of the
token scans. -/
def isDigitLC (c : Char) : Bool := 48 ≤ c.toNat && c.toNat ≤ 57

/-- Length of the run of ASCII digits starting at index `i`
(the `while (charCodeAt ...)` loops; running off the end stops the
loop, matching `charCodeAt` returning NaN there). -/
def digitRunLen (s : JStr) (i : Nat) : Nat :=
  ((s.drop i).takeWhile isDigitLC).length

/-- Decimal value of a digit run (JS `parseInt` on an all-digit slice). -/
def digitsToNat (l : JStr) : Nat :=
  l.foldl (fun a c => a * 10 + (c.toNat - 48)) 0

/-- JS `split(delim)` for a one-character delimiter: every delimiter
starts a new field, empty fields included. -/
def splitOn (c : Char) : JStr → List JStr
  | [] => [[]]
  | x :: xs =>
    match splitOn c xs with
    | [] => [[]]
    | f :: rest => if x = c then [] :: f :: rest else (x :: f) :: rest

/-- JS `parseInt(v, 10)`: skip leading spaces, optional sign, then a
digit run; `none` models NaN. -/
def jsParseInt (s : JStr) : Option Int :=
  let s1 := s.dropWhile (fun c => c == ' ' || c == '\t' || c == '\n' || c == '\r')
  let (neg, s2) : Bool × JStr :=
    match s1 with
    | '-' :: r => (true, r)
    | '+' :: r => (false, r)
    | r => (false, r)
  let run := s2.takeWhile isDigitLC
  if run.isEmpty then none
  else some (if neg then -(digitsToNat run : Int) else (digitsToNat run : Int))

end RS

namespace RS.Zmq

/-- `ZmqMessageType` of pack-shared/ZmqRequestSchema.ts. -/
inductive ZmqMessageType
  | VALIDATE_AND_LOAD
  | UPDATE_USAGE
  | GET_CREDITS
  deriving DecidableEq, Repr

/-- Field kind in the request schema: `'string' | 'number'`. -/
inductive FieldType
  | fstring
  | fnumber
  deriving DecidableEq, Repr

open ZmqMessageType FieldType

/-- `ZMQ_REQUEST_SCHEMA`: ordered request args per message type. -/
def ZMQ_REQUEST_SCHEMA : ZmqMessageType → List (String × FieldType)
  | VALIDATE_AND_LOAD => [("apiKey", fstring), ("sessionId", fstring)]
  | UPDATE_USAGE =>
      [("accountId", fstring), ("sessionId", fstring), ("provider", fstring),
       ("inputTokens", fnumber), ("outputTokens", fnumber)]
  | GET_CREDITS => [("accountId", fstring)]

/-- The `typeStr as ZmqMessageType` cast followed by the schema lookup:
an unknown type string has no schema entry. -/
def zmqTypeOfString (s : JStr) : Option ZmqMessageType :=
  if s = "VALIDATE_AND_LOAD".toList then some VALIDATE_AND_LOAD
  else if s = "UPDATE_USAGE".toList then some UPDATE_USAGE
  else if s = "GET_CREDITS".toList then some GET_CREDITS
  else none

/-- A decoded argument value: `string` args stay strings, `number`
args go through `parseInt` (`none` = NaN). -/
inductive JsVal
  | str (s : JStr)
  | num (n : Option Int)
  deriving DecidableEq, Repr

/-- Decoded request of `ZmqUtils.decodeRequest`. -/
structure DecodedRequest where
  id : JStr
  type : ZmqMessageType
  args : List (String × JsVal)
  deriving DecidableEq, Repr

/-- `ZmqUtils.decodeRequest` (pack-shared/ZmqUtils.ts): split on `'|'`,
require at least id and type, look up the schema, and reject unless the
argument count equals the schema length exactly. -/
def decodeRequest (raw : JStr) : Option DecodedRequest :=
  let parts := splitOn '|' raw
  if parts.length < 2 then none
  else
    match parts with
    | id :: typeStr :: argStrings =>
      match zmqTypeOfString typeStr with
      | none => none
      | some t =>
        let schema := ZMQ_REQUEST_SCHEMA t
        if argStrings.length ≠ schema.length then none
        else
          some ⟨id, t,
            List.zipWith
              (fun f v =>
                (f.1, match f.2 with
                  | FieldType.fstring => JsVal.str v
                  | FieldType.fnumber => JsVal.num (jsParseInt v)))
              schema argStrings⟩
    | _ => none

end RS.Zmq

namespace RS.Data

/-- A row of the `accounts` table (credit columns; balances are JS
numbers, embedded as integers). -/
structure AccountRow where
  id : String
  token_remaining : Int
  topup_remaining : Int
  deriving DecidableEq, Repr

/-- A row of the `api_keys` table; `key_hash` stores the hex SHA-256 of
the plaintext key, `expires_at` is an optional timestamp.  Time is
embedded as `Nat`; the SQL comparison `expires_at > now` becomes
`now < e`. -/
structure ApiKeyRow where
  key_hash : String
  account_id : String
  expires_at : Option Nat
  deriving DecidableEq, Repr

/-- A row of the `sessions` table: composite key
`(account_id, session_id, type)` with `type ∈ {SESSION, CONV}` and an
opaque `data` blob. -/
structure SessionsTableRow where
  account_id : String
  session_id : String
  type : String
  data : JStr
  deriving DecidableEq, Repr

/-- A row of the `usage_metrics` append log. -/
structure UsageRow where
  account_id : String
  session_id : String
  provider : String
  input_tokens : Nat
  output_tokens : Nat
  total_tokens : Nat
  deriving DecidableEq, Repr

/-- The relational state owned by the datastore. -/
structure Db where
  accounts : List AccountRow
  api_keys : List ApiKeyRow
  sessions : List SessionsTableRow
  usage_metrics : List UsageRow
  deriving Repr

/-- The `WHERE (a.expires_at IS NULL OR a.expires_at > now)` filter. -/
def activeAt (k : ApiKeyRow) (now : Nat) : Bool :=
  match k.expires_at with
  | none => true
  | some e => now < e

/-- Result row of the `loadSessionByKeyAndId` queries; `type` and
`data` are `none` for SQL NULLs produced by the left join. -/
structure SessionRow where
  account_id : String
  type : Option String
  data : Option JStr
  token_remaining : Int
  topup_remaining : Int
  deriving DecidableEq, Repr

end RS.Data

namespace RS.SQLiteAccountRepo

open RS.Data

/-- `SQLiteAccountRepo.loadSessionByKeyAndId`
(pack-db/src/impls/SQLiteAccountRepo.ts): INNER JOIN of `api_keys`,
`sessions` and `accounts` — a valid key with no session rows yields
zero rows.  The SHA-256 `hashKey` is a parameter `hash`. -/
def loadSessionByKeyAndId (hash : String → String) (db : Db) (now : Nat)
    (apiKey sessionId : String) : List SessionRow :=
  (db.api_keys.filter fun k =>
      k.key_hash == hash apiKey && activeAt k now).flatMap fun k =>
    (db.sessions.filter fun s =>
        s.account_id == k.account_id && s.session_id == sessionId).flatMap fun s =>
      (db.accounts.filter fun acc => acc.id == k.account_id).map fun acc =>
        { account_id := k.account_id
          type := some s.type
          data := some s.data
          token_remaining := acc.token_remaining
          topup_remaining := acc.topup_remaining }

/-- Step 1 of the cascading deduction: the top-up balance after the
debit (`if (topupRemaining > 0) { if (≥) topup -= usage else topup = 0 }`). -/
def cascadeTopup (topup total : Int) : Int :=
  if topup > 0 then (if topup ≥ total then topup - total else 0) else topup

/-- Step 1 of the cascading deduction: the value of `remainingUsage`
after the top-up debit. -/
def cascadeRemaining (topup total : Int) : Int :=
  if topup > 0 then (if topup ≥ total then 0 else total - topup) else total

/-- Step 2 of the cascading deduction: the subscription balance after
subtracting the remainder (`if (remainingUsage > 0) token -= ...`),
which may go negative. -/
def cascadeToken (token topup total : Int) : Int :=
  if cascadeRemaining topup total > 0 then token - cascadeRemaining topup total
  else token

/-- `SQLiteAccountRepo.insertUsage`: one transaction that reads the
balances, cascades the deduction (top-up drained to zero first, then
the subscription balance which may go negative), appends a
`usage_metrics` row with `total_tokens = inputTokens + outputTokens`,
and updates the account row.  The transaction is embedded as an
`Option`-returning pure function: `none` (account missing / rollback)
leaves no write visible. -/
def insertUsage (db : Db) (accountId sessionId provider : String)
    (inputTokens outputTokens : Nat) : Option Db :=
  match db.accounts.find? (fun acc => acc.id == accountId) with
  | none => none
  | some account =>
    some
      { db with
        usage_metrics := db.usage_metrics ++
          [{ account_id := accountId
             session_id := sessionId
             provider := provider
             input_tokens := inputTokens
             output_tokens := outputTokens
             total_tokens := inputTokens + outputTokens }]
        accounts := db.accounts.map fun a =>
          if a.id == accountId then
            { a with
              topup_remaining :=
                cascadeTopup account.topup_remaining
                  ((inputTokens : Int) + (outputTokens : Int))
              token_remaining :=
                cascadeToken account.token_remaining account.topup_remaining
                  ((inputTokens : Int) + (outputTokens : Int)) }
          else a }

end RS.SQLiteAccountRepo

namespace RS.SQLSessionRepo

open RS.Data

/-- `SQLSessionRepo.loadSessionByKeyAndId`
(pack-db/src/impls/SQLSessionRepo.ts): `api_keys` JOIN `accounts`
LEFT JOIN `sessions` — a valid key with no matching session rows still
yields one row whose session columns are NULL but whose credit columns
are populated. -/
def loadSessionByKeyAndId (hash : String → String) (db : Db) (now : Nat)
    (apiKey sessionId : String) : List SessionRow :=
  (db.api_keys.filter fun k =>
      k.key_hash == hash apiKey && activeAt k now).flatMap fun k =>
    (db.accounts.filter fun acc => acc.id == k.account_id).flatMap fun acc =>
      let ss := db.sessions.filter fun s =>
        s.account_id == k.account_id && s.session_id == sessionId
      if ss.isEmpty then
        [{ account_id := k.account_id
           type := none
           data := none
           token_remaining := acc.token_remaining
           topup_remaining := acc.topup_remaining }]
      else
        ss.map fun s =>
          { account_id := k.account_id
            type := some s.type
            data := some s.data
            token_remaining := acc.token_remaining
            topup_remaining := acc.topup_remaining }

end RS.SQLSessionRepo

namespace RS.AccountServiceImpl

open RS.Data

/-- Modelled from the spec: `SUMMARY_DEFAULTS.THRESHOLD_CHARS` lives in
pack-db/src/impls/prompts/SummaryPrompt.ts which is absent from src/;
spec §4.7 fixes it at 32000 characters. -/
def THRESHOLD_CHARS : Nat := 32000

/-- The injected context header
`'\n\nHere is the previous conversation that happened which should be continued now:\n'`. -/
def CONTEXT_HEADER : JStr :=
  "\n\nHere is the previous conversation that happened which should be continued now:\n".toList

/-- The chained `.replace` escaping of `injectIntoInstructions`:
backslash, quote, newline, carriage return and tab are escaped (the
sequential global replaces amount to this single character map). -/
def escapeForJson (s : JStr) : JStr :=
  s.flatMap fun c =>
    if c = '\\' then ['\\', '\\']
    else if c = '"' then ['\\', '"']
    else if c = '\n' then ['\\', 'n']
    else if c = '\r' then ['\\', 'r']
    else if c = '\t' then ['\\', 't']
    else [c]

/-- `AccountServiceImpl.truncateToRecent`: keep the last `maxChars`
characters, drop a leading partial line when an embedded newline
exists at a positive index, and prepend the omission marker. -/
def truncateToRecent (content : JStr) (maxChars : Nat) : JStr :=
  if content.length ≤ maxChars then content
  else
    let truncated := content.drop (content.length - maxChars)
    match findSub ['\n'] truncated with
    | some firstNewline =>
      if firstNewline > 0 then
        "[...earlier context omitted...]\n".toList ++ truncated.drop (firstNewline + 1)
      else truncated
    | none => truncated

/-- JSON string encoding used by `JSON.stringify` for the synthetic
session (the five common escapes; other control characters do not occur
in the embedded payloads). -/
def jsonEncodeStr (s : JStr) : JStr :=
  '"' :: (escapeForJson s) ++ ['"']

/-- `AccountServiceImpl.createSyntheticSession`: the serialized minimal
`session.update` envelope with the given instructions. -/
def createSyntheticSession (instructions : JStr) : JStr :=
  "\x7b\"type\":\"session.update\",\"session\":\x7b\"type\":\"realtime\",\"model\":\"gpt-realtime\",\"output_modalities\":[\"audio\"],\"instructions\":".toList
    ++ jsonEncodeStr instructions ++ "\x7d\x7d".toList

/-- JS `\s` on the ASCII range, used by the `\s*` pieces of the
instructions regex. -/
def wsChar (c : Char) : Bool :=
  c == ' ' || c == '\t' || c == '\n' || c == '\r' ||
  c == '\x0b' || c == '\x0c'

/-- Index after skipping whitespace from `i`. -/
def skipWs (s : JStr) (i : Nat) : Nat :=
  i + ((s.drop i).takeWhile wsChar).length

/-- First index (relative) of a `'"'` not immediately preceded by a
backslash; `prev` is the character before the current head. -/
def firstNakedQuoteAux : Char → JStr → Option Nat
  | _, [] => none
  | prev, c :: r =>
    if c = '"' ∧ prev ≠ '\\' then some 0
    else (firstNakedQuoteAux c r).map (· + 1)

/-- Last index of a character in a list. -/
def lastIdxOf (c : Char) (l : JStr) : Option Nat :=
  (findSub [c] l.reverse).map (fun k => l.length - 1 - k)

/-- Absolute position of the closing quote the backtracking regex body
`[^"]*(?:\\.[^"]*)*` stops at when the opening quote sits just before
position `b`: the first quote not immediately preceded by a backslash,
or — when every quote is so preceded — the last quote (greedy
absorption). -/
def closingQuoteFrom (s : JStr) (b : Nat) : Option Nat :=
  let l := s.drop b
  match firstNakedQuoteAux '"' l with
  | some q => some (b + q)
  | none => (lastIdxOf '"' l).map (b + ·)

/-- The `"instructions"` literal of the splice regex. -/
def instrLit : JStr := "\"instructions\"".toList

/-- Try the regex `("instructions"\s*:\s*")body(")` anchored at
position `i`; on success return the absolute position of the closing
quote (where the escaped context is spliced in). -/
def matchInstrAt (s : JStr) (i : Nat) : Option Nat :=
  if isPrefLC instrLit (s.drop i) then
    let j := skipWs s (i + instrLit.length)
    match s.drop j with
    | ':' :: _ =>
      let k := skipWs s (j + 1)
      match s.drop k with
      | '"' :: _ => closingQuoteFrom s (k + 1)
      | _ => none
    | _ => none
  else none

/-- Leftmost match of the instructions regex over the whole string. -/
def findInstrMatch (s : JStr) : Option Nat :=
  (List.range (s.length + 1)).findSome? (matchInstrAt s)

/-- `AccountServiceImpl.injectIntoInstructions`: splice the escaped
context just before the closing quote of the `"instructions"` string
literal; with no match, prepend a fresh `"instructions"` field when the
payload is a JSON object, else return the payload unchanged. -/
def injectIntoInstructions (sessionData context : JStr) : JStr :=
  let escapedContext := escapeForJson context
  match findInstrMatch sessionData with
  | some q => sessionData.take q ++ escapedContext ++ sessionData.drop q
  | none =>
    match sessionData with
    | '{' :: rest =>
      "\x7b\"instructions\":\"".toList ++ escapedContext ++ "\",".toList ++ rest
    | _ => sessionData

/-- The `SessionData` response record of `validateAndLoad`. -/
structure SessionData where
  error : String
  accountId : String
  sessionData : JStr
  credits : Int
  deriving DecidableEq, Repr

/-- The row-classification loop of `validateAndLoad`: the last
`SESSION` row's data wins (`row.data || ''`). -/
def sessionBlobOf (rows : List SessionRow) : JStr :=
  rows.foldl
    (fun acc r => if r.type = some "SESSION" then (r.data.getD []) else acc) []

/-- The row-classification loop of `validateAndLoad` for `CONV` rows. -/
def convBlobOf (rows : List SessionRow) : JStr :=
  rows.foldl
    (fun acc r => if r.type = some "CONV" then (r.data.getD []) else acc) []

/-- The `contextToInject` computation shared by both branches: the raw
conversation, or its recency truncation once it exceeds the
summarization threshold (the summarization itself is fire-and-forget
and does not shape the response). -/
def contextToInject (conversation : JStr) : JStr :=
  if conversation.length > THRESHOLD_CHARS then
    truncateToRecent conversation THRESHOLD_CHARS
  else conversation

/-- `AccountServiceImpl.validateAndLoad`
(pack-db/src/impls/AccountServiceImpl.ts) applied to the rows returned
by the load query: zero rows ⇒ `INVALID_AUTH`; non-positive combined
credits ⇒ `NO_CREDITS`; otherwise `error = ""` with
`credits = token_remaining + topup_remaining`, the session payload
assembled from the `SESSION`/`CONV` blobs (conversation injected into
the instructions, synthetic session when only a conversation exists). -/
def validateAndLoadRows (rows : List SessionRow) : SessionData :=
  match rows with
  | [] => { error := "INVALID_AUTH", accountId := "", sessionData := [], credits := 0 }
  | r0 :: _ =>
    let accountId := r0.account_id
    let totalCredits := r0.token_remaining + r0.topup_remaining
    if totalCredits ≤ 0 then
      { error := "NO_CREDITS", accountId := accountId, sessionData := [], credits := totalCredits }
    else
      let sessionBlob := sessionBlobOf rows
      let conversation := convBlobOf rows
      if sessionBlob.isEmpty then
        if conversation.length > 0 then
          { error := ""
            accountId := accountId
            sessionData := createSyntheticSession (CONTEXT_HEADER ++ contextToInject conversation)
            credits := totalCredits }
        else
          { error := "", accountId := accountId, sessionData := [], credits := totalCredits }
      else if conversation.length > 0 then
        { error := ""
          accountId := accountId
          sessionData := injectIntoInstructions sessionBlob (CONTEXT_HEADER ++ contextToInject conversation)
          credits := totalCredits }
      else
        { error := "", accountId := accountId, sessionData := sessionBlob, credits := totalCredits }

/-- Modelled from the spec: the current four-repository
`AccountServiceImpl` (wired by pack-db/src/impls/ServiceFactory.ts with
a dedicated session repository) is absent from src/; per spec §4.5/§4.7
its `validateAndLoad` delegates the load to the session repository's
LEFT JOIN query and then classifies the rows exactly as the
in-src `validateAndLoad` body does. -/
def validateAndLoad (hash : String → String) (db : Db) (now : Nat)
    (apiKey sessionId : String) : SessionData :=
  validateAndLoadRows
    (RS.SQLSessionRepo.loadSessionByKeyAndId hash db now apiKey sessionId)

end RS.AccountServiceImpl

namespace RS.Migrator

/-- Result status of a migration step; `runMigration` maps a thrown
exception to `failed`. -/
inductive MStatus
  | executed
  | skipped
  | failed
  deriving DecidableEq, Repr

/-- Schema state: the set of existing schema objects (tables and
indexes), as created by the migration scripts. -/
abbrev Schema := List String

/-- `PreconditionHelpers.tableExists` (and the other existence helpers)
over the schema state. -/
def objExists (s : Schema) (name : String) : Bool := s.contains name

/-- `2025-01-01T001-CreateAccountsTable.up`: skip when `accounts`
exists, else create the table and its two indexes. -/
def upAccounts (s : Schema) : MStatus × Schema :=
  if objExists s "accounts" then (MStatus.skipped, s)
  else (MStatus.executed,
    s ++ ["accounts", "accounts_email_index", "accounts_status_index"])

/-- `2025-01-02T001-CreateApiKeysTable.up`: skip when `api_keys`
exists; throw (→ `failed`, no writes) when `accounts` is missing; else
create the table and its index. -/
def upApiKeys (s : Schema) : MStatus × Schema :=
  if objExists s "api_keys" then (MStatus.skipped, s)
  else if ¬ objExists s "accounts" then (MStatus.failed, s)
  else (MStatus.executed, s ++ ["api_keys", "api_keys_account_id_index"])

/-- `CreateSessionsTable.up`: skip when `sessions` exists, else create
the table and its index. -/
def upSessions (s : Schema) : MStatus × Schema :=
  if objExists s "sessions" then (MStatus.skipped, s)
  else (MStatus.executed, s ++ ["sessions", "sessions_created_index"])

/-- `2025-01-03T002-CreateUsageMetricsTable.up`: skip when
`usage_metrics` exists, else create the table and its four indexes. -/
def upUsageMetrics (s : Schema) : MStatus × Schema :=
  if objExists s "usage_metrics" then (MStatus.skipped, s)
  else (MStatus.executed,
    s ++ ["usage_metrics", "idx_usage_account", "idx_usage_provider",
          "idx_usage_created", "idx_usage_account_time"])

/-- A migration file: its sortable name, the table whose existence the
precondition check guards on, and its `up` step. -/
structure Migration where
  name : String
  target : String
  up : Schema → MStatus × Schema

/-- The migration scripts in lexicographic file order (accounts before
api_keys before the 2025-01-03 scripts, per the timestamp-prefixed
names). -/
def migrations : List Migration :=
  [⟨"2025-01-01T001-CreateAccountsTable", "accounts", upAccounts⟩,
   ⟨"2025-01-02T001-CreateApiKeysTable", "api_keys", upApiKeys⟩,
   ⟨"2025-01-03T001-CreateSessionsTable", "sessions", upSessions⟩,
   ⟨"2025-01-03T002-CreateUsageMetricsTable", "usage_metrics", upUsageMetrics⟩]

/-- `Migrator.runAll` over a migration list: run each `up` in order,
record `(name, status)`, and stop after the first `failed` (the failed
entry is still pushed). -/
def runAllAux : List Migration → Schema → List (String × MStatus) × Schema
  | [], s => ([], s)
  | m :: ms, s =>
    let (st, s') := m.up s
    if st = MStatus.failed then ([(m.name, st)], s')
    else
      let (rs, s'') := runAllAux ms s'
      ((m.name, st) :: rs, s'')

/-- `Migrator.runAll` on the repository's migration scripts. -/
def runAll (s : Schema) : List (String × MStatus) × Schema :=
  runAllAux migrations s

end RS.Migrator

namespace RS.UsageHandler

/-- `'"type":"response.done"'`, the completion-event literal. -/
def doneLit : JStr := "\"type\":\"response.done\"".toList

/-- `'"input_tokens":'` (length 15). -/
def inputLit : JStr := "\"input_tokens\":".toList

/-- `'"output_tokens":'` (length 16). -/
def outputLit : JStr := "\"output_tokens\":".toList

/-- The shared token-extraction scan of `UsageHandler.saveUsage` and
`Orchestrator.trackUsage`: locate `"input_tokens":`, read the ASCII
digit run after it, then locate `"output_tokens":` from the end of
that run and read its digit run; any missing piece aborts with
`none`. -/
def extractTokens (m : JStr) : Option (Nat × Nat) :=
  match findSub inputLit m with
  | none => none
  | some inputIdx =>
    let inputStart := inputIdx + 15
    let inputRun := digitRunLen m inputStart
    if inputRun = 0 then none
    else
      let inputTokens := digitsToNat (sliceLC m inputStart (inputStart + inputRun))
      match findSubFrom outputLit m (inputStart + inputRun) with
      | none => none
      | some outputIdx =>
        let outputStart := outputIdx + 16
        let outputRun := digitRunLen m outputStart
        if outputRun = 0 then none
        else
          some (inputTokens,
            digitsToNat (sliceLC m outputStart (outputStart + outputRun)))

/-- The recognition-and-extraction of `UsageHandler.saveUsage`: early
`null` unless the frame contains the `response.done` literal, then the
token scan. -/
def saveUsageExtract (m : JStr) : Option (Nat × Nat) :=
  if containsLC m doneLit then extractTokens m else none

/-- `USAGE_BATCH_SIZE = 5`. -/
def USAGE_BATCH_SIZE : Nat := 5

/-- State of a `UsageHandler`, with a ghost log of the fire-and-forget
`UPDATE_USAGE(input, output)` emissions. -/
structure UState where
  inputTokens : Nat
  outputTokens : Nat
  currentBatchSize : Nat
  emitted : List (Nat × Nat)
  deriving DecidableEq, Repr

/-- The freshly constructed handler. -/
def initU : UState := ⟨0, 0, 0, []⟩

/-- `UsageHandler.flush`: nothing to do on an empty batch; otherwise
emit one `UPDATE_USAGE` with the accumulated totals and zero all
fields. -/
def flush (st : UState) : UState :=
  if st.currentBatchSize = 0 then st
  else
    { inputTokens := 0
      outputTokens := 0
      currentBatchSize := 0
      emitted := st.emitted ++ [(st.inputTokens, st.outputTokens)] }

/-- `UsageHandler.saveUsage`: on a recognized completion event,
accumulate the extracted tokens, bump the batch counter, and flush once
the counter reaches the batch size; unrecognized frames change
nothing. -/
def saveUsage (st : UState) (m : JStr) : UState :=
  match saveUsageExtract m with
  | none => st
  | some (i, o) =>
    let st' : UState :=
      { st with
        inputTokens := st.inputTokens + i
        outputTokens := st.outputTokens + o
        currentBatchSize := st.currentBatchSize + 1 }
    if st'.currentBatchSize ≥ USAGE_BATCH_SIZE then flush st' else st'

/-- Ingesting a whole sequence of upstream frames. -/
def processMsgs (st : UState) (ms : List JStr) : UState :=
  ms.foldl saveUsage st

/-- Specification-side sums of a batch. -/
def sumFst (l : List (Nat × Nat)) : Nat := (l.map Prod.fst).sum

/-- Specification-side sums of a batch. -/
def sumSnd (l : List (Nat × Nat)) : Nat := (l.map Prod.snd).sum

/-- Specification-side: the per-batch `(Σinput, Σoutput)` sums of the
successive complete 5-batches of a record list. -/
def chunkSums (l : List (Nat × Nat)) : List (Nat × Nat) :=
  if _h : 5 ≤ l.length then
    (sumFst (l.take 5), sumSnd (l.take 5)) :: chunkSums (l.drop 5)
  else []
termination_by l.length
decreasing_by
  simp only [List.length_drop]
  omega

/-- Specification-side: the residual records after the last complete
5-batch. -/
def residual (l : List (Nat × Nat)) : List (Nat × Nat) :=
  l.drop (5 * (l.length / 5))

end RS.UsageHandler

namespace RS.CheckpointHandler

/-- The user transcript-delta type literal. -/
def userLit : JStr :=
  "\"type\":\"conversation.item.input_audio_transcription.delta\"".toList

/-- The agent transcript-delta type literal. -/
def agentLit : JStr :=
  "\"type\":\"response.output_audio_transcript.delta\"".toList

/-- `'"delta":"'` (length 9). -/
def deltaLit : JStr := "\"delta\":\"".toList

/-- `CONVERSATION_BUFFER_THRESHOLD = 200`. -/
def CONVERSATION_BUFFER_THRESHOLD : Nat := 200

/-- Speaker tag. -/
inductive Speaker
  | user
  | agent
  deriving DecidableEq, Repr

/-- The string pushed in front of a fragment on a speaker change. -/
def speakerStr : Speaker → JStr
  | Speaker.user => "user".toList
  | Speaker.agent => "agent".toList

/-- The bounded delta extraction of `trackConversation`: find
`'"delta":"'`, then the next `'"'`, and slice between them — a
substring scan, not a JSON parse. -/
def extractDelta (m : JStr) : Option JStr :=
  match findSub deltaLit m with
  | none => none
  | some deltaIdx =>
    let start := deltaIdx + 9
    match findSubFrom ['"'] m start with
    | none => none
    | some e => some (sliceLC m start e)

/-- State of a `CheckpointHandler`, with a ghost log of the
fire-and-forget `APPEND_CONVERSATION` payloads. -/
structure CState where
  conversationBuffer : List JStr
  conversationBufferLength : Nat
  currentConvType : Option Speaker
  appended : List JStr
  deriving DecidableEq, Repr

/-- The freshly constructed handler. -/
def initC : CState := ⟨[], 0, none, []⟩

/-- `CheckpointHandler.flush`: nothing on an empty fragment list;
otherwise join the fragments, reset buffer, length and speaker first,
then emit the append. -/
def flush (c : CState) : CState :=
  if c.conversationBuffer.isEmpty then c
  else
    { conversationBuffer := []
      conversationBufferLength := 0
      currentConvType := none
      appended := c.appended ++ [c.conversationBuffer.flatten] }

/-- `CheckpointHandler.trackConversation`: classify the frame by the
two transcript-delta type literals (the agent check runs second and
overrides), extract the delta by bounded substring scan, push the
fragment (speaker-tagged and newline-separated on a speaker change),
grow the length counter by the delta length, and flush at the
threshold.  The JS guard `if (!type || !delta) return;` also drops an
extracted empty-string delta, since `''` is falsy: modelled by the
`delta.isEmpty` test. -/
def trackConversation (c : CState) (m : JStr) : CState :=
  let tyDl : Option Speaker × Option JStr :=
    if containsLC m userLit then (some Speaker.user, extractDelta m)
    else (none, none)
  let tyDl : Option Speaker × Option JStr :=
    if containsLC m agentLit then (some Speaker.agent, extractDelta m)
    else tyDl
  match tyDl with
  | (some ty, some delta) =>
    if delta.isEmpty then c
    else
      let c1 : CState :=
        if c.currentConvType ≠ some ty then
          { c with
            conversationBuffer := c.conversationBuffer ++
              [(if c.conversationBuffer.isEmpty then [] else ['\n']) ++
                speakerStr ty ++ [':'] ++ delta]
            currentConvType := some ty }
        else
          { c with conversationBuffer := c.conversationBuffer ++ [delta] }
      let c2 := { c1 with
        conversationBufferLength := c1.conversationBufferLength + delta.length }
      if c2.conversationBufferLength ≥ CONVERSATION_BUFFER_THRESHOLD then
        flush c2
      else c2
  | _ => c

end RS.CheckpointHandler

namespace RS.Orchestrator

/-- `MAX_BUFFER_SIZE = 10000`. -/
def MAX_BUFFER_SIZE : Nat := 10000

/-- `USAGE_BATCH_SIZE = 5` (Orchestrator.ts). -/
def USAGE_BATCH_SIZE : Nat := 5

/-- The `startsWith` literal of `saveSessionIfNeeded`. -/
def sessionUpdatedLit : JStr := "\x7b\"type\":\"session.updated\"".toList

/-- The `startsWith` literal of `trackUsage`. -/
def doneStartLit : JStr := "\x7b\"type\":\"response.done\"".toList

/-- State of one `Orchestrator` (pack-server/src/Orchestrator.ts), with
ghost logs for the outbound effects: frames piped to the client
WebSocket, fire-and-forget `SAVE_SESSION` and `UPDATE_USAGE` calls,
upstream `disconnect()` calls, reconnect attempts, and logged
errors. -/
structure OState where
  accountId : String
  sessionId : String
  sessionData : JStr
  credits : Int
  isVoiceProviderConnected : Bool
  messageBuffer : List JStr
  responseCount : Nat
  creditsCheckInProgress : Bool
  usageBufferInput : Nat
  usageBufferOutput : Nat
  usageResponseCount : Nat
  skipSessionSave : Bool
  checkpointHandler : RS.CheckpointHandler.CState
  clientSent : List JStr
  savedSessions : List (String × String × JStr)
  updateUsageEvents : List (Nat × Nat)
  voiceDisconnects : Nat
  reconnects : Nat
  logs : List String
  deriving DecidableEq, Repr

/-- The `Orchestrator` constructor: fields zeroed, and
`skipSessionSave = sessionData.length > 0`. -/
def mkOrchestrator (accountId sessionId : String) (sessionData : JStr)
    (credits : Int) : OState :=
  { accountId := accountId
    sessionId := sessionId
    sessionData := sessionData
    credits := credits
    isVoiceProviderConnected := false
    messageBuffer := []
    responseCount := 0
    creditsCheckInProgress := false
    usageBufferInput := 0
    usageBufferOutput := 0
    usageResponseCount := 0
    skipSessionSave := sessionData.length > 0
    checkpointHandler := RS.CheckpointHandler.initC
    clientSent := []
    savedSessions := []
    updateUsageEvents := []
    voiceDisconnects := 0
    reconnects := 0
    logs := [] }

/-- `Orchestrator.connect`: disconnect any prior upstream connection
and construct a fresh one with `this` as handler (ghost reconnect
count). -/
def connect (st : OState) : OState :=
  { st with reconnects := st.reconnects + 1 }

/-- `Orchestrator.saveSessionIfNeeded`: nothing unless the frame
starts with `{"type":"session.updated"`; a set `skipSessionSave` is
cleared and swallows the frame; otherwise fire-and-forget
`SAVE_SESSION(accountId, sessionId, raw)`. -/
def saveSessionIfNeeded (st : OState) (m : JStr) : OState :=
  if ¬ startsWithLC m sessionUpdatedLit then st
  else if st.skipSessionSave then { st with skipSessionSave := false }
  else
    { st with savedSessions :=
        st.savedSessions ++ [(st.accountId, st.sessionId, m)] }

/-- `Orchestrator.flushUsageBuffer`: nothing on an empty batch, else
one `UPDATE_USAGE` with the batched totals and a reset buffer. -/
def flushUsageBuffer (st : OState) : OState :=
  if st.usageResponseCount = 0 then st
  else
    { st with
      updateUsageEvents :=
        st.updateUsageEvents ++ [(st.usageBufferInput, st.usageBufferOutput)]
      usageBufferInput := 0
      usageBufferOutput := 0
      usageResponseCount := 0 }

/-- `Orchestrator.trackUsage`: recognize `response.done` frames by the
`startsWith` literal, extract the token counts by substring scan,
deduct from the local credits, batch the usage, flush at the batch
size, and — when credits are depleted — disconnect the upstream and
throw `NO_CREDITS` (the returned Bool). -/
def trackUsage (st : OState) (m : JStr) : OState × Bool :=
  if ¬ startsWithLC m doneStartLit then (st, false)
  else
    match RS.UsageHandler.extractTokens m with
    | none => (st, false)
    | some (i, o) =>
      let totalTokens : Int := (i : Int) + (o : Int)
      let st1 : OState :=
        { st with
          credits := st.credits - totalTokens
          responseCount := st.responseCount + 1
          usageBufferInput := st.usageBufferInput + i
          usageBufferOutput := st.usageBufferOutput + o
          usageResponseCount := st.usageResponseCount + 1 }
      let st2 :=
        if st1.usageResponseCount ≥ USAGE_BATCH_SIZE then flushUsageBuffer st1
        else st1
      if st2.credits ≤ 0 then
        ({ st2 with voiceDisconnects := st2.voiceDisconnects + 1 }, true)
      else (st2, false)

/-- `Orchestrator.onError`: log the error, mark the voice provider
disconnected, clear `skipSessionSave`. -/
def onError (st : OState) (error : String) : OState :=
  { st with
    logs := st.logs ++ [error]
    isVoiceProviderConnected := false
    skipSessionSave := false }

/-- `Orchestrator.onClose`: mark not connected, set `skipSessionSave`,
auto-reconnect. -/
def onClose (st : OState) : OState :=
  connect
    { st with isVoiceProviderConnected := false, skipSessionSave := true }

/-- `Orchestrator.onMsgReceived`: pipe to the client first, then
`trackUsage` (whose `NO_CREDITS` throw aborts the rest), then
`saveSessionIfNeeded`, then the checkpoint handler. -/
def onMsgReceived (st : OState) (m : JStr) : OState × Bool :=
  let st0 := { st with clientSent := st.clientSent ++ [m] }
  let (st1, threw) := trackUsage st0 m
  if threw then (st1, true)
  else
    let st2 := saveSessionIfNeeded st1 m
    let st3 :=
      { st2 with checkpointHandler :=
          RS.CheckpointHandler.trackConversation st2.checkpointHandler m }
    (st3, false)

end RS.Orchestrator

namespace RS.OpenAIConnection

/-- The two observable primitive steps of
`OpenAIConnection.disconnect` (pack-server/src/OpenAIConnection.ts). -/
inductive WsAction
  | closeWs
  | nullHandler
  deriving DecidableEq, Repr

/-- Connection state: whether the underlying WebSocket is non-null and
OPEN, and whether the handler reference is still set. -/
structure Conn where
  wsOpen : Bool
  hasHandler : Bool
  deriving DecidableEq, Repr

/-- The ordered primitive actions `disconnect()` performs:
`if (this.ws && this.ws.readyState === OPEN) this.ws.close();` and
then `this.handler = null;`. -/
def disconnectActions (c : Conn) : List WsAction :=
  (if c.wsOpen then [WsAction.closeWs] else []) ++ [WsAction.nullHandler]

/-- `OpenAIConnection.disconnect`: close the socket when open, null
the handler. -/
def disconnect (_c : Conn) : Conn :=
  { wsOpen := false, hasHandler := false }

/-- A pending `'message'` event being dispatched after the current
turn: `this.handler?.onMsgReceived(data)` — a no-op once the handler
reference is null. -/
def deliverMsg (c : Conn) (orch : RS.Orchestrator.OState) (m : JStr) :
    RS.Orchestrator.OState × Bool :=
  if c.hasHandler then RS.Orchestrator.onMsgReceived orch m
  else (orch, false)

/-- A pending `'close'` event: `this.handler?.onClose(code, reason)` —
a no-op once the handler reference is null. -/
def deliverClose (c : Conn) (orch : RS.Orchestrator.OState) :
    RS.Orchestrator.OState :=
  if c.hasHandler then RS.Orchestrator.onClose orch else orch

end RS.OpenAIConnection

namespace RS.Data

/-- `SELECT ... FROM accounts WHERE id = accountId` (first row). -/
def lookupAccount (db : Db) (accountId : String) : Option AccountRow :=
  db.accounts.find? (fun a => a.id == accountId)

/-- The api-key row the `WHERE key_hash = ... AND (expires_at IS NULL
OR expires_at > now)` filter selects (first match; `key_hash` is the
table's primary key). -/
def validKeyFor (db : Db) (hash : String → String) (apiKey : String)
    (now : Nat) : Option ApiKeyRow :=
  db.api_keys.find? (fun k => k.key_hash == hash apiKey && activeAt k now)

end RS.Data

/-! ## Theorems -/

namespace RS.Claims

open RS RS.Data

/-- C4 (counterexample): the claim asserts that `decodeRequest` accepts
a frame whose final opaque field contains extra `|` characters,
recombining the split tail into that field.  On the concrete frame
`"7|VALIDATE_AND_LOAD|key|s1|tail"` — whose tail after the type splits
into 3 fields against a 2-field schema, i.e. exactly a final field
carrying one extra delimiter — the codec returns failure instead of
`sessionId = "s1|tail"`. -/
theorem decodeRequest_no_tail_recombination :
    (RS.splitOn '|' "7|VALIDATE_AND_LOAD|key|s1|tail".toList).length - 2 >
      (RS.Zmq.ZMQ_REQUEST_SCHEMA RS.Zmq.ZmqMessageType.VALIDATE_AND_LOAD).length ∧
    RS.Zmq.decodeRequest "7|VALIDATE_AND_LOAD|key|s1|tail".toList = none := by
  decide

/-- C4 (amended): `decodeRequest` fails on every frame whose argument
field count differs from the schema's arity in either direction — too
few fields are rejected (as claimed) and extra delimiters in the final
field are rejected as well, with no tail recombination. -/
theorem decodeRequest_arity_exact (raw id typeStr : JStr) (args : List JStr)
    (t : RS.Zmq.ZmqMessageType)
    (hsplit : RS.splitOn '|' raw = id :: typeStr :: args)
    (hty : RS.Zmq.zmqTypeOfString typeStr = some t)
    (hne : args.length ≠ (RS.Zmq.ZMQ_REQUEST_SCHEMA t).length) :
    RS.Zmq.decodeRequest raw = none := by
  unfold RS.Zmq.decodeRequest
  rw [hsplit]
  simp [hty, hne]

/-- Witness for C4's amended theorem at the frame `"9|GET_CREDITS|a|b"`
(two argument fields against the 1-field `GET_CREDITS` schema). -/
theorem decodeRequest_arity_exact_witness :
    RS.Zmq.decodeRequest "9|GET_CREDITS|a|b".toList = none :=
  decodeRequest_arity_exact _ "9".toList "GET_CREDITS".toList
    ["a".toList, "b".toList] RS.Zmq.ZmqMessageType.GET_CREDITS
    (by decide) (by decide) (by decide)

/-- C7 (counterexample): the claim asserts `onError` does not mark the
voice provider disconnected.  From a connected state, `onError` flips
`isVoiceProviderConnected` to `false`. -/
theorem onError_marks_disconnected :
    (RS.Orchestrator.onError
      { RS.Orchestrator.mkOrchestrator "acc" "sess" [] 10 with
        isVoiceProviderConnected := true } "boom").isVoiceProviderConnected
        = false ∧
    ({ RS.Orchestrator.mkOrchestrator "acc" "sess" [] 10 with
       isVoiceProviderConnected := true } :
       RS.Orchestrator.OState).isVoiceProviderConnected = true :=
  ⟨rfl, rfl⟩

/-- C7 (amended): `onError` appends the error to the log, clears
`skipSessionSave`, and also marks the voice provider disconnected;
every other Orchestrator field (credits, buffers, counters, ghost
effect logs) is left unchanged. -/
theorem onError_effect (st : RS.Orchestrator.OState) (e : String) :
    RS.Orchestrator.onError st e =
      { st with
        logs := st.logs ++ [e]
        isVoiceProviderConnected := false
        skipSessionSave := false } :=
  rfl

/-- C6 (counterexample): the claim asserts `disconnect()` nulls the
handler reference before closing the WebSocket.  On an open connection
with an attached handler the primitive actions of
`OpenAIConnection.disconnect` run in the opposite order: the
`ws.close()` call precedes `this.handler = null`. -/
theorem disconnect_closes_before_nulling :
    RS.OpenAIConnection.disconnectActions ⟨true, true⟩ =
      [RS.OpenAIConnection.WsAction.closeWs,
       RS.OpenAIConnection.WsAction.nullHandler] ∧
    RS.OpenAIConnection.disconnectActions ⟨true, true⟩ ≠
      [RS.OpenAIConnection.WsAction.nullHandler,
       RS.OpenAIConnection.WsAction.closeWs] := by
  decide

/-- C6 (amended): `disconnect()` closes the underlying WebSocket (when
open) and then nulls the handler reference; since the socket callbacks
are dispatched only after `disconnect()` returns, the nulled handler
makes every pending `onMsgReceived`/`onClose` delivery a no-op that
mutates no Orchestrator state. -/
theorem disconnect_handler_nulling (c : RS.OpenAIConnection.Conn)
    (orch : RS.Orchestrator.OState) (m : JStr) :
    (RS.OpenAIConnection.disconnect c).hasHandler = false ∧
    RS.OpenAIConnection.deliverMsg (RS.OpenAIConnection.disconnect c) orch m
      = (orch, false) ∧
    RS.OpenAIConnection.deliverClose (RS.OpenAIConnection.disconnect c) orch
      = orch :=
  ⟨rfl, rfl, rfl⟩

/-- Updating the found row in place: mapping an id-preserving
conditional update over the account list maps `find?` through the
update. -/
theorem find?_map_if (l : List RS.Data.AccountRow) (aid : String)
    (f : RS.Data.AccountRow → RS.Data.AccountRow)
    (hid : ∀ a, (f a).id = a.id) :
    ∀ acc, l.find? (fun a => a.id == aid) = some acc →
      (l.map fun a => if a.id == aid then f a else a).find?
          (fun a => a.id == aid) = some (f acc) := by
  induction l with
  | nil => intro acc h; simp at h
  | cons a l ih =>
    intro acc h
    by_cases hpa : (a.id == aid) = true
    · have hfa : ((f a).id == aid) = true := by rw [hid]; exact hpa
      simp only [List.find?, hpa] at h
      injection h with h
      subst h
      simp [List.find?, hpa, hfa]
    · have hfalse : (a.id == aid) = false := by
        simpa using hpa
      simp only [List.find?, hfalse] at h
      simp only [List.map_cons, hfalse, Bool.false_eq_true, if_false,
        List.find?, hfalse]
      exact ih acc h

/-- C1: `insertUsage` on an existing account cascades the deduction —
`topup_remaining` is drained toward zero first (`max` formula, hence
never negative when it starts non-negative), the remainder comes out
of `token_remaining`, the net change of the two balances is
`-(inputTokens + outputTokens)`, the appended usage row carries
`total_tokens = inputTokens + outputTokens`, and the transaction is
atomic: a missing account yields `none` with no write visible, and on
success both the usage append and the account update are present in
the same returned state. -/
theorem insertUsage_cascade (db : RS.Data.Db) (aid sid prov : String)
    (i o : Nat) :
    (RS.Data.lookupAccount db aid = none →
      RS.SQLiteAccountRepo.insertUsage db aid sid prov i o = none) ∧
    ∀ acc, RS.Data.lookupAccount db aid = some acc →
      ∃ db' acc',
        RS.SQLiteAccountRepo.insertUsage db aid sid prov i o = some db' ∧
        RS.Data.lookupAccount db' aid = some acc' ∧
        (0 ≤ acc.topup_remaining →
          acc'.topup_remaining =
            max (acc.topup_remaining - ((i : Int) + (o : Int))) 0) ∧
        (acc'.topup_remaining - acc.topup_remaining) +
            (acc'.token_remaining - acc.token_remaining) =
          -((i : Int) + (o : Int)) ∧
        db'.usage_metrics = db.usage_metrics ++
          [{ account_id := aid, session_id := sid, provider := prov,
             input_tokens := i, output_tokens := o,
             total_tokens := i + o }] ∧
        db'.api_keys = db.api_keys ∧ db'.sessions = db.sessions := by
  constructor
  · intro h
    unfold RS.SQLiteAccountRepo.insertUsage
    rw [show db.accounts.find? (fun a => a.id == aid) = none from h]
  · intro acc h
    have h' : db.accounts.find? (fun a => a.id == aid) = some acc := h
    unfold RS.SQLiteAccountRepo.insertUsage
    simp only [h']
    refine ⟨_,
      { acc with
        topup_remaining :=
          RS.SQLiteAccountRepo.cascadeTopup acc.topup_remaining
            ((i : Int) + (o : Int))
        token_remaining :=
          RS.SQLiteAccountRepo.cascadeToken acc.token_remaining
            acc.topup_remaining ((i : Int) + (o : Int)) },
      rfl, ?_, ?_, ?_, rfl, rfl, rfl⟩
    · exact find?_map_if db.accounts aid
        (fun a =>
          { a with
            token_remaining :=
              RS.SQLiteAccountRepo.cascadeToken acc.token_remaining
                acc.topup_remaining ((i : Int) + (o : Int))
            topup_remaining :=
              RS.SQLiteAccountRepo.cascadeTopup acc.topup_remaining
                ((i : Int) + (o : Int)) })
        (fun a => rfl) acc h'
    · intro hnn
      show RS.SQLiteAccountRepo.cascadeTopup acc.topup_remaining _ = _
      unfold RS.SQLiteAccountRepo.cascadeTopup
      split_ifs with h1 h2
      · exact (max_eq_left (by omega)).symm
      · exact (max_eq_right (by omega)).symm
      · rw [max_eq_right (by omega)]; omega
    · show RS.SQLiteAccountRepo.cascadeTopup _ _ - _ +
        (RS.SQLiteAccountRepo.cascadeToken _ _ _ - _) = _
      unfold RS.SQLiteAccountRepo.cascadeToken
        RS.SQLiteAccountRepo.cascadeRemaining
        RS.SQLiteAccountRepo.cascadeTopup
      split_ifs <;> omega

/-- Witness for C1: an account `(token_remaining, topup_remaining) =
(100, 30)` debited by `insertUsage(…, 20, 25)`: the top-up drains to 0,
the subscription balance drops to 85, and the usage row totals 45. -/
theorem insertUsage_cascade_witness :
    ∃ db' acc',
      RS.SQLiteAccountRepo.insertUsage
          { accounts := [{ id := "a1", token_remaining := 100,
                           topup_remaining := 30 }],
            api_keys := [], sessions := [], usage_metrics := [] }
          "a1" "s1" "OPENAI" 20 25 = some db' ∧
      RS.Data.lookupAccount db' "a1" = some acc' ∧
      (0 ≤ (30 : Int) →
        acc'.topup_remaining = max ((30 : Int) - ((20 : Int) + (25 : Int))) 0) ∧
      (acc'.topup_remaining - 30) + (acc'.token_remaining - 100) =
        -((20 : Int) + (25 : Int)) ∧
      db'.usage_metrics =
        [] ++ [{ account_id := "a1", session_id := "s1", provider := "OPENAI",
                 input_tokens := 20, output_tokens := 25,
                 total_tokens := 20 + 25 }] ∧
      db'.api_keys = [] ∧ db'.sessions = [] :=
  (insertUsage_cascade
      { accounts := [{ id := "a1", token_remaining := 100,
                       topup_remaining := 30 }],
        api_keys := [], sessions := [], usage_metrics := [] }
      "a1" "s1" "OPENAI" 20 25).2
    { id := "a1", token_remaining := 100, topup_remaining := 30 }
    (by decide)

/-- C9: each migration's `up` short-circuits to `skipped` when its
target table already exists; from any initial schema state, every
entry of a `runAll` pass is `executed` or `skipped` (the api_keys
precondition cannot fail because the accounts migration sorts first),
and a second `runAll` immediately after yields only `skipped`
entries. -/
theorem runAll_idempotent (s : RS.Migrator.Schema) :
    (∀ m ∈ RS.Migrator.migrations, RS.Migrator.objExists s m.target = true →
      m.up s = (RS.Migrator.MStatus.skipped, s)) ∧
    (∀ e ∈ (RS.Migrator.runAll s).1,
      e.2 = RS.Migrator.MStatus.executed ∨
        e.2 = RS.Migrator.MStatus.skipped) ∧
    (∀ e ∈ (RS.Migrator.runAll (RS.Migrator.runAll s).2).1,
      e.2 = RS.Migrator.MStatus.skipped) := by
  refine ⟨?_, ?_, ?_⟩
  · intro m hm ht
    fin_cases hm <;>
      simp_all [RS.Migrator.upAccounts, RS.Migrator.upApiKeys,
        RS.Migrator.upSessions, RS.Migrator.upUsageMetrics]
  all_goals
    by_cases hA : RS.Migrator.objExists s "accounts" = true <;>
    by_cases hK : RS.Migrator.objExists s "api_keys" = true <;>
    by_cases hS : RS.Migrator.objExists s "sessions" = true <;>
    by_cases hU : RS.Migrator.objExists s "usage_metrics" = true <;>
      simp_all [RS.Migrator.runAll, RS.Migrator.runAllAux,
        RS.Migrator.migrations, RS.Migrator.upAccounts,
        RS.Migrator.upApiKeys, RS.Migrator.upSessions,
        RS.Migrator.upUsageMetrics, RS.Migrator.objExists,
        List.contains, List.elem_eq_mem, decide_eq_true_eq,
        List.mem_append, List.mem_cons, List.not_mem_nil]

/-- Witness for C9: an existing `accounts` table makes the accounts
migration skip, and a second `runAll` from the empty schema yields
only `skipped` entries. -/
theorem runAll_idempotent_witness :
    RS.Migrator.upAccounts ["accounts"] =
      (RS.Migrator.MStatus.skipped, ["accounts"]) ∧
    ∀ e ∈ (RS.Migrator.runAll (RS.Migrator.runAll []).2).1,
      e.2 = RS.Migrator.MStatus.skipped :=
  ⟨(runAll_idempotent ["accounts"]).1
      ⟨"2025-01-01T001-CreateAccountsTable", "accounts",
        RS.Migrator.upAccounts⟩
      (List.mem_cons_self _ _) (by rfl),
   (runAll_idempotent []).2.2⟩

/-- Primary-key reasoning: when the projections `f` of a list are
pairwise distinct, a filter whose predicate pins the projection to the
value of a known member returns exactly that member. -/
theorem filter_eq_singleton_of_nodup_map {α β : Type} (l : List α)
    (f : α → β) (hnd : (l.map f).Nodup) (p : α → Bool) (v : β)
    (hpv : ∀ x, p x = true → f x = v) (a : α) (ha : a ∈ l)
    (hpa : p a = true) : l.filter p = [a] := by
  induction l with
  | nil => cases ha
  | cons x xs ih =>
    simp only [List.map_cons, List.nodup_cons] at hnd
    obtain ⟨hx_notin, hnd'⟩ := hnd
    rcases List.mem_cons.mp ha with rfl | ha'
    · rw [List.filter_cons_of_pos hpa]
      have hnil : xs.filter p = [] := by
        rw [List.filter_eq_nil_iff]
        intro y hy hpy
        rw [hpv a hpa] at hx_notin
        exact hx_notin (hpv y hpy ▸ List.mem_map_of_mem f hy)
      rw [hnil]
    · have hpx : p x = false := by
        rcases Bool.eq_false_or_eq_true (p x) with h | h
        · exfalso
          rw [hpv x h] at hx_notin
          exact hx_notin (hpv a hpa ▸ List.mem_map_of_mem f ha')
        · exact h
      rw [List.filter_cons_of_neg (by simp [hpx])]
      exact ih hnd' ha'

/-- Primary-key reasoning: distinct projections make the projection
injective on members. -/
theorem eq_of_mem_of_nodup_map {α β : Type} (l : List α) (f : α → β)
    (hnd : (l.map f).Nodup) (a b : α) (ha : a ∈ l) (hb : b ∈ l)
    (hf : f a = f b) : a = b := by
  induction l with
  | nil => cases ha
  | cons x xs ih =>
    simp only [List.map_cons, List.nodup_cons] at hnd
    obtain ⟨hx_notin, hnd'⟩ := hnd
    rcases List.mem_cons.mp ha with rfl | ha' <;>
      rcases List.mem_cons.mp hb with rfl | hb'
    · rfl
    · exact absurd (hf ▸ List.mem_map_of_mem f hb') hx_notin
    · exact absurd (hf ▸ List.mem_map_of_mem f ha') hx_notin
    · exact ih hnd' ha' hb'

/-- The success/failure anatomy of `validateAndLoadRows` on a
non-empty row list: non-positive combined credits of the first row
yield the `NO_CREDITS` record, positive credits yield `error = ""`
with `credits` equal to that sum (whatever payload branch runs). -/
theorem validateAndLoadRows_cons (r0 : RS.Data.SessionRow)
    (rest : List RS.Data.SessionRow) :
    (r0.token_remaining + r0.topup_remaining ≤ 0 →
      RS.AccountServiceImpl.validateAndLoadRows (r0 :: rest) =
        { error := "NO_CREDITS", accountId := r0.account_id,
          sessionData := [],
          credits := r0.token_remaining + r0.topup_remaining }) ∧
    (0 < r0.token_remaining + r0.topup_remaining →
      (RS.AccountServiceImpl.validateAndLoadRows (r0 :: rest)).error = "" ∧
      (RS.AccountServiceImpl.validateAndLoadRows (r0 :: rest)).accountId =
        r0.account_id ∧
      (RS.AccountServiceImpl.validateAndLoadRows (r0 :: rest)).credits =
        r0.token_remaining + r0.topup_remaining) := by
  constructor
  · intro h
    unfold RS.AccountServiceImpl.validateAndLoadRows
    simp [h]
  · intro h
    unfold RS.AccountServiceImpl.validateAndLoadRows
    have h' : ¬ (r0.token_remaining + r0.topup_remaining ≤ 0) := by omega
    simp only [h', if_false]
    split_ifs <;> simp

/-- The LEFT JOIN load under primary-key and foreign-key integrity:
with a valid key `k` owned by account `acc`, the query returns a
non-empty row list whose first row carries `acc`'s credit columns. -/
theorem loadLeft_valid (hash : String → String) (db : RS.Data.Db)
    (now : Nat) (apiKey sessionId : String)
    (hK : (db.api_keys.map RS.Data.ApiKeyRow.key_hash).Nodup)
    (hA : (db.accounts.map RS.Data.AccountRow.id).Nodup)
    (k : RS.Data.ApiKeyRow)
    (hk : RS.Data.validKeyFor db hash apiKey now = some k)
    (acc : RS.Data.AccountRow) (hacc : acc ∈ db.accounts)
    (hid : acc.id = k.account_id) :
    ∃ r0 rest,
      RS.SQLSessionRepo.loadSessionByKeyAndId hash db now apiKey sessionId =
        r0 :: rest ∧
      r0.account_id = k.account_id ∧
      r0.token_remaining = acc.token_remaining ∧
      r0.topup_remaining = acc.topup_remaining := by
  have hkp := List.find?_some hk
  have hkm := List.mem_of_find?_eq_some hk
  have hF : db.api_keys.filter
      (fun k' => k'.key_hash == hash apiKey && RS.Data.activeAt k' now) =
      [k] := by
    refine filter_eq_singleton_of_nodup_map _ RS.Data.ApiKeyRow.key_hash hK
      _ (hash apiKey) ?_ k hkm hkp
    intro x hx
    exact eq_of_beq (Bool.and_elim_left hx)
  have hAcc : db.accounts.filter (fun a => a.id == k.account_id) = [acc] := by
    refine filter_eq_singleton_of_nodup_map _ RS.Data.AccountRow.id hA
      _ k.account_id ?_ acc hacc (by simp [hid])
    intro x hx
    exact eq_of_beq hx
  unfold RS.SQLSessionRepo.loadSessionByKeyAndId
  rw [hF]
  simp only [List.flatMap_cons, List.flatMap_nil, List.append_nil]
  rw [hAcc]
  simp only [List.flatMap_cons, List.flatMap_nil, List.append_nil]
  cases hss : db.sessions.filter
      (fun s => s.account_id == k.account_id &&
        s.session_id == sessionId) with
  | nil =>
    refine ⟨{ account_id := k.account_id, type := none, data := none,
              token_remaining := acc.token_remaining,
              topup_remaining := acc.topup_remaining },
            [], ?_, rfl, rfl, rfl⟩
    rfl
  | cons s ss' =>
    refine ⟨{ account_id := k.account_id, type := some s.type,
              data := some s.data,
              token_remaining := acc.token_remaining,
              topup_remaining := acc.topup_remaining },
            ss'.map (fun s' =>
              { account_id := k.account_id, type := some s'.type,
                data := some s'.data,
                token_remaining := acc.token_remaining,
                topup_remaining := acc.topup_remaining }),
            ?_, rfl, rfl, rfl⟩
    rfl

/-- C2: under primary-key integrity (distinct key hashes, distinct
account ids) and foreign-key integrity (every key's account exists),
`validateAndLoad` returns `INVALID_AUTH` (with credits 0) exactly when
the hashed key matches no stored key or the matching key is expired;
with a valid key owned by `acc` it returns `NO_CREDITS` exactly when
`token_remaining + topup_remaining ≤ 0`, and otherwise `error = ""`
with `credits = token_remaining + topup_remaining`. -/
theorem validateAndLoad_classification (hash : String → String)
    (db : RS.Data.Db) (now : Nat) (apiKey sessionId : String)
    (hK : (db.api_keys.map RS.Data.ApiKeyRow.key_hash).Nodup)
    (hA : (db.accounts.map RS.Data.AccountRow.id).Nodup)
    (hFK : ∀ k ∈ db.api_keys, ∃ acc ∈ db.accounts, acc.id = k.account_id) :
    ((RS.AccountServiceImpl.validateAndLoad hash db now apiKey
        sessionId).error = "INVALID_AUTH" ↔
      RS.Data.validKeyFor db hash apiKey now = none) ∧
    (RS.Data.validKeyFor db hash apiKey now = none →
      (RS.AccountServiceImpl.validateAndLoad hash db now apiKey
        sessionId).credits = 0) ∧
    (∀ k, RS.Data.validKeyFor db hash apiKey now = some k →
      ∀ acc ∈ db.accounts, acc.id = k.account_id →
        (((RS.AccountServiceImpl.validateAndLoad hash db now apiKey
              sessionId).error = "NO_CREDITS") ↔
          acc.token_remaining + acc.topup_remaining ≤ 0) ∧
        (0 < acc.token_remaining + acc.topup_remaining →
          (RS.AccountServiceImpl.validateAndLoad hash db now apiKey
            sessionId).error = "" ∧
          (RS.AccountServiceImpl.validateAndLoad hash db now apiKey
            sessionId).credits =
            acc.token_remaining + acc.topup_remaining)) := by
  cases hfind : RS.Data.validKeyFor db hash apiKey now with
  | none =>
    have hF : db.api_keys.filter
        (fun k' => k'.key_hash == hash apiKey && RS.Data.activeAt k' now)
        = [] := by
      rw [List.filter_eq_nil_iff]
      exact List.find?_eq_none.mp hfind
    have hrows : RS.SQLSessionRepo.loadSessionByKeyAndId hash db now apiKey
        sessionId = [] := by
      unfold RS.SQLSessionRepo.loadSessionByKeyAndId
      rw [hF]
      rfl
    unfold RS.AccountServiceImpl.validateAndLoad
    rw [hrows]
    exact ⟨by simp [RS.AccountServiceImpl.validateAndLoadRows],
      fun _ => rfl, fun k hk => Option.noConfusion hk⟩
  | some k =>
    obtain ⟨acc, hacc, hid⟩ := hFK k (List.mem_of_find?_eq_some hfind)
    obtain ⟨r0, rest, hrows, hid0, htok, htop⟩ :=
      loadLeft_valid hash db now apiKey sessionId hK hA k hfind acc hacc hid
    unfold RS.AccountServiceImpl.validateAndLoad
    rw [hrows]
    obtain ⟨hNC, hOK⟩ := validateAndLoadRows_cons r0 rest
    have hsum : r0.token_remaining + r0.topup_remaining =
        acc.token_remaining + acc.topup_remaining := by rw [htok, htop]
    refine ⟨?_, fun hc => Option.noConfusion hc, ?_⟩
    · constructor
      · intro herr
        exfalso
        rcases le_or_lt (r0.token_remaining + r0.topup_remaining) 0
          with hle | hlt
        · rw [hNC hle] at herr
          simp at herr
        · obtain ⟨he, _, _⟩ := hOK hlt
          rw [he] at herr
          exact absurd herr (by decide)
      · intro hc
        exact Option.noConfusion hc
    · intro k' hk' acc' hacc' hid'
      injection hk' with hkk
      subst hkk
      have haa : acc' = acc :=
        eq_of_mem_of_nodup_map _ RS.Data.AccountRow.id hA acc' acc hacc'
          hacc (by rw [hid', hid])
      subst haa
      constructor
      · constructor
        · intro herr
          by_contra hpos
          obtain ⟨he, _, _⟩ := hOK (by omega)
          rw [he] at herr
          exact absurd herr (by decide)
        · intro hle
          rw [hNC (by omega)]
      · intro hpos
        obtain ⟨he, _, hc⟩ := hOK (by omega)
        exact ⟨he, by rw [hc, hsum]⟩

/-- Witness for C2: one account (credits 7), one matching unexpired
key, no session rows; the classification theorem applies and yields
`error = ""` with credits 7. -/
theorem validateAndLoad_classification_witness :
    ((RS.AccountServiceImpl.validateAndLoad (fun s => s ++ "#h")
        { accounts := [{ id := "a1", token_remaining := 5,
                         topup_remaining := 2 }],
          api_keys := [{ key_hash := "k1#h", account_id := "a1",
                         expires_at := none }],
          sessions := [], usage_metrics := [] } 0 "k1" "s1").error = "NO_CREDITS"
      ↔ (5 : Int) + 2 ≤ 0) ∧
    ((0 : Int) < 5 + 2 →
      (RS.AccountServiceImpl.validateAndLoad (fun s => s ++ "#h")
        { accounts := [{ id := "a1", token_remaining := 5,
                         topup_remaining := 2 }],
          api_keys := [{ key_hash := "k1#h", account_id := "a1",
                         expires_at := none }],
          sessions := [], usage_metrics := [] } 0 "k1" "s1").error = "" ∧
      (RS.AccountServiceImpl.validateAndLoad (fun s => s ++ "#h")
        { accounts := [{ id := "a1", token_remaining := 5,
                         topup_remaining := 2 }],
          api_keys := [{ key_hash := "k1#h", account_id := "a1",
                         expires_at := none }],
          sessions := [], usage_metrics := [] } 0 "k1" "s1").credits =
        (5 : Int) + 2) :=
  (validateAndLoad_classification (fun s => s ++ "#h")
      { accounts := [{ id := "a1", token_remaining := 5,
                       topup_remaining := 2 }],
        api_keys := [{ key_hash := "k1#h", account_id := "a1",
                       expires_at := none }],
        sessions := [], usage_metrics := [] } 0 "k1" "s1"
      (by decide) (by decide) (by decide)).2.2
    { key_hash := "k1#h", account_id := "a1", expires_at := none }
    (by decide)
    { id := "a1", token_remaining := 5, topup_remaining := 2 }
    (by decide) (by decide)

/-- C3: with a valid unexpired key, existing owning account, positive
credits and no session rows of either kind, the LEFT JOIN query still
returns a credit-bearing row, so `validateAndLoad` answers `error=""`,
empty `sessionData` and the account's credits — whereas the inner-join
variant of the query (`SQLiteAccountRepo.loadSessionByKeyAndId`)
yields zero rows on the same state, which `validateAndLoadRows` would
classify as `INVALID_AUTH`. -/
theorem validateAndLoad_left_join_no_session (hash : String → String)
    (db : RS.Data.Db) (now : Nat) (apiKey sessionId : String)
    (hK : (db.api_keys.map RS.Data.ApiKeyRow.key_hash).Nodup)
    (hA : (db.accounts.map RS.Data.AccountRow.id).Nodup)
    (k : RS.Data.ApiKeyRow)
    (hk : RS.Data.validKeyFor db hash apiKey now = some k)
    (acc : RS.Data.AccountRow) (hacc : acc ∈ db.accounts)
    (hid : acc.id = k.account_id)
    (hnosess : db.sessions.filter
      (fun s => s.account_id == k.account_id &&
        s.session_id == sessionId) = [])
    (hcred : 0 < acc.token_remaining + acc.topup_remaining) :
    RS.SQLSessionRepo.loadSessionByKeyAndId hash db now apiKey sessionId
      ≠ [] ∧
    RS.SQLiteAccountRepo.loadSessionByKeyAndId hash db now apiKey sessionId
      = [] ∧
    RS.AccountServiceImpl.validateAndLoad hash db now apiKey sessionId =
      { error := "", accountId := k.account_id, sessionData := [],
        credits := acc.token_remaining + acc.topup_remaining } ∧
    RS.AccountServiceImpl.validateAndLoadRows
        (RS.SQLiteAccountRepo.loadSessionByKeyAndId hash db now apiKey
          sessionId) =
      { error := "INVALID_AUTH", accountId := "", sessionData := [],
        credits := 0 } := by
  have hkp := List.find?_some hk
  have hkm := List.mem_of_find?_eq_some hk
  have hF : db.api_keys.filter
      (fun k' => k'.key_hash == hash apiKey && RS.Data.activeAt k' now) =
      [k] := by
    refine filter_eq_singleton_of_nodup_map _ RS.Data.ApiKeyRow.key_hash hK
      _ (hash apiKey) ?_ k hkm hkp
    intro x hx
    exact eq_of_beq (Bool.and_elim_left hx)
  have hAcc : db.accounts.filter (fun a => a.id == k.account_id) = [acc] := by
    refine filter_eq_singleton_of_nodup_map _ RS.Data.AccountRow.id hA
      _ k.account_id ?_ acc hacc (by simp [hid])
    intro x hx
    exact eq_of_beq hx
  have hleft : RS.SQLSessionRepo.loadSessionByKeyAndId hash db now apiKey
      sessionId =
      [{ account_id := k.account_id, type := none, data := none,
         token_remaining := acc.token_remaining,
         topup_remaining := acc.topup_remaining }] := by
    unfold RS.SQLSessionRepo.loadSessionByKeyAndId
    rw [hF]
    simp only [List.flatMap_cons, List.flatMap_nil, List.append_nil]
    rw [hAcc]
    simp only [List.flatMap_cons, List.flatMap_nil, List.append_nil]
    rw [hnosess]
    rfl
  have hinner : RS.SQLiteAccountRepo.loadSessionByKeyAndId hash db now
      apiKey sessionId = [] := by
    unfold RS.SQLiteAccountRepo.loadSessionByKeyAndId
    rw [hF]
    simp only [List.flatMap_cons, List.flatMap_nil, List.append_nil]
    rw [hnosess]
    rfl
  refine ⟨by rw [hleft]; simp, hinner, ?_, by rw [hinner]; rfl⟩
  unfold RS.AccountServiceImpl.validateAndLoad
  rw [hleft]
  unfold RS.AccountServiceImpl.validateAndLoadRows
  have hc : ¬ (acc.token_remaining + acc.topup_remaining ≤ 0) := by omega
  simp [RS.AccountServiceImpl.sessionBlobOf,
    RS.AccountServiceImpl.convBlobOf, hc]

/-- Witness for C3: one account with credits 7, one valid key, and an
empty sessions table. -/
theorem validateAndLoad_left_join_no_session_witness :
    RS.SQLSessionRepo.loadSessionByKeyAndId (fun s => s ++ "#h")
      { accounts := [{ id := "a1", token_remaining := 5,
                       topup_remaining := 2 }],
        api_keys := [{ key_hash := "k1#h", account_id := "a1",
                       expires_at := some 99 }],
        sessions := [], usage_metrics := [] } 0 "k1" "s1" ≠ [] ∧
    RS.SQLiteAccountRepo.loadSessionByKeyAndId (fun s => s ++ "#h")
      { accounts := [{ id := "a1", token_remaining := 5,
                       topup_remaining := 2 }],
        api_keys := [{ key_hash := "k1#h", account_id := "a1",
                       expires_at := some 99 }],
        sessions := [], usage_metrics := [] } 0 "k1" "s1" = [] ∧
    RS.AccountServiceImpl.validateAndLoad (fun s => s ++ "#h")
      { accounts := [{ id := "a1", token_remaining := 5,
                       topup_remaining := 2 }],
        api_keys := [{ key_hash := "k1#h", account_id := "a1",
                       expires_at := some 99 }],
        sessions := [], usage_metrics := [] } 0 "k1" "s1" =
      { error := "", accountId := "a1", sessionData := [],
        credits := (5 : Int) + 2 } ∧
    RS.AccountServiceImpl.validateAndLoadRows
        (RS.SQLiteAccountRepo.loadSessionByKeyAndId (fun s => s ++ "#h")
          { accounts := [{ id := "a1", token_remaining := 5,
                           topup_remaining := 2 }],
            api_keys := [{ key_hash := "k1#h", account_id := "a1",
                           expires_at := some 99 }],
            sessions := [], usage_metrics := [] } 0 "k1" "s1") =
      { error := "INVALID_AUTH", accountId := "", sessionData := [],
        credits := 0 } :=
  validateAndLoad_left_join_no_session (fun s => s ++ "#h")
    { accounts := [{ id := "a1", token_remaining := 5,
                     topup_remaining := 2 }],
      api_keys := [{ key_hash := "k1#h", account_id := "a1",
                     expires_at := some 99 }],
      sessions := [], usage_metrics := [] } 0 "k1" "s1"
    (by decide) (by decide)
    { key_hash := "k1#h", account_id := "a1", expires_at := some 99 }
    (by decide)
    { id := "a1", token_remaining := 5, topup_remaining := 2 }
    (by decide) (by decide) (by decide) (by decide)

/-- `chunkSums` of fewer than five records is empty. -/
theorem chunkSums_small (l : List (Nat × Nat)) (h : l.length < 5) :
    RS.UsageHandler.chunkSums l = [] := by
  rw [RS.UsageHandler.chunkSums]
  simp [Nat.not_le.mpr h]

/-- `chunkSums` peels one complete batch of five off the front. -/
theorem chunkSums_chunk (l r : List (Nat × Nat)) (h : l.length = 5) :
    RS.UsageHandler.chunkSums (l ++ r) =
      (RS.UsageHandler.sumFst l, RS.UsageHandler.sumSnd l) ::
        RS.UsageHandler.chunkSums r := by
  rw [RS.UsageHandler.chunkSums]
  have h5 : 5 ≤ (l ++ r).length := by simp [h]
  have ht : (l ++ r).take 5 = l := by
    rw [← h]
    exact List.take_left l r
  have hd : (l ++ r).drop 5 = r := by
    rw [← h]
    exact List.drop_left l r
  simp only [List.length_append, h, ht, hd]
  rw [dif_pos (by omega)]

/-- `residual` of fewer than five records is the whole list. -/
theorem residual_small (l : List (Nat × Nat)) (h : l.length < 5) :
    RS.UsageHandler.residual l = l := by
  unfold RS.UsageHandler.residual
  rw [Nat.div_eq_of_lt h]
  rfl

/-- `residual` ignores a leading complete batch of five. -/
theorem residual_chunk (l r : List (Nat × Nat)) (h : l.length = 5) :
    RS.UsageHandler.residual (l ++ r) = RS.UsageHandler.residual r := by
  unfold RS.UsageHandler.residual
  have hlen : (l ++ r).length = 5 + r.length := by simp [h]
  rw [hlen]
  have hdiv : 5 * ((5 + r.length) / 5) = 5 + 5 * (r.length / 5) := by omega
  rw [hdiv]
  rw [show 5 + 5 * (r.length / 5) = 5 + 5 * (r.length / 5) from rfl]
  rw [← List.drop_drop]
  congr 1
  rw [← h]
  exact List.drop_left l r

/-- `residual` is empty when the record count is a multiple of five. -/
theorem residual_mod_zero (l : List (Nat × Nat)) (h : l.length % 5 = 0) :
    RS.UsageHandler.residual l = [] := by
  unfold RS.UsageHandler.residual
  have : 5 * (l.length / 5) = l.length := by omega
  rw [this]
  exact List.drop_length l

/-- `chunkSums` emits exactly one entry per complete batch of five. -/
theorem chunkSums_length (l : List (Nat × Nat)) :
    (RS.UsageHandler.chunkSums l).length = l.length / 5 := by
  by_cases h : 5 ≤ l.length
  · rw [RS.UsageHandler.chunkSums]
    simp only [h, dif_pos, List.length_cons]
    have := chunkSums_length (l.drop 5)
    rw [this]
    simp only [List.length_drop]
    omega
  · rw [chunkSums_small l (by omega)]
    simp
    omega
termination_by l.length
decreasing_by
  simp only [List.length_drop]
  omega

/-- The state of a `UsageHandler` after ingesting any frame sequence,
characterized against the recognized-record list: the accumulators
hold the residual partial batch, the counter its size, and the
emission log one batched `UPDATE_USAGE` per complete batch of five. -/
theorem processMsgs_char (ms : List JStr) :
    ∀ (E p : List (Nat × Nat)), p.length < 5 →
    RS.UsageHandler.processMsgs
        { inputTokens := RS.UsageHandler.sumFst p
          outputTokens := RS.UsageHandler.sumSnd p
          currentBatchSize := p.length
          emitted := E } ms =
      { inputTokens := RS.UsageHandler.sumFst
          (RS.UsageHandler.residual
            (p ++ ms.filterMap RS.UsageHandler.saveUsageExtract))
        outputTokens := RS.UsageHandler.sumSnd
          (RS.UsageHandler.residual
            (p ++ ms.filterMap RS.UsageHandler.saveUsageExtract))
        currentBatchSize :=
          (p ++ ms.filterMap RS.UsageHandler.saveUsageExtract).length % 5
        emitted := E ++ RS.UsageHandler.chunkSums
          (p ++ ms.filterMap RS.UsageHandler.saveUsageExtract) } := by
  induction ms with
  | nil =>
    intro E p hp
    simp [RS.UsageHandler.processMsgs, residual_small p hp,
      chunkSums_small p hp, Nat.mod_eq_of_lt hp]
  | cons m ms ih =>
    intro E p hp
    rw [show RS.UsageHandler.processMsgs
        { inputTokens := RS.UsageHandler.sumFst p
          outputTokens := RS.UsageHandler.sumSnd p
          currentBatchSize := p.length
          emitted := E } (m :: ms) =
      RS.UsageHandler.processMsgs
        (RS.UsageHandler.saveUsage
          { inputTokens := RS.UsageHandler.sumFst p
            outputTokens := RS.UsageHandler.sumSnd p
            currentBatchSize := p.length
            emitted := E } m) ms from rfl]
    cases hx : RS.UsageHandler.saveUsageExtract m with
    | none =>
      rw [show RS.UsageHandler.saveUsage
          { inputTokens := RS.UsageHandler.sumFst p
            outputTokens := RS.UsageHandler.sumSnd p
            currentBatchSize := p.length
            emitted := E } m =
        { inputTokens := RS.UsageHandler.sumFst p
          outputTokens := RS.UsageHandler.sumSnd p
          currentBatchSize := p.length
          emitted := E } from by
          unfold RS.UsageHandler.saveUsage
          rw [hx]]
      rw [ih E p hp]
      simp [List.filterMap_cons, hx]
    | some io =>
      obtain ⟨i, o⟩ := io
      have hsum1 : RS.UsageHandler.sumFst p + i =
          RS.UsageHandler.sumFst (p ++ [(i, o)]) := by
        simp [RS.UsageHandler.sumFst]
      have hsum2 : RS.UsageHandler.sumSnd p + o =
          RS.UsageHandler.sumSnd (p ++ [(i, o)]) := by
        simp [RS.UsageHandler.sumSnd]
      have hfm : (m :: ms).filterMap RS.UsageHandler.saveUsageExtract =
          (i, o) :: ms.filterMap RS.UsageHandler.saveUsageExtract := by
        simp [List.filterMap_cons, hx]
      rw [hfm]
      rw [show p ++ (i, o) :: ms.filterMap RS.UsageHandler.saveUsageExtract
          = (p ++ [(i, o)]) ++ ms.filterMap RS.UsageHandler.saveUsageExtract
        from by simp]
      by_cases hfull : p.length + 1 ≥ 5
      · have hlen5 : (p ++ [(i, o)]).length = 5 := by
          simp
          omega
        rw [chunkSums_chunk _ _ hlen5, residual_chunk _ _ hlen5]
        have hb : ((p ++ [(i, o)]) ++
            ms.filterMap RS.UsageHandler.saveUsageExtract).length % 5 =
            (ms.filterMap RS.UsageHandler.saveUsageExtract).length % 5 := by
          rw [List.length_append, hlen5]
          omega
        rw [hb]
        have hstep : RS.UsageHandler.saveUsage
            { inputTokens := RS.UsageHandler.sumFst p
              outputTokens := RS.UsageHandler.sumSnd p
              currentBatchSize := p.length
              emitted := E } m =
          { inputTokens := 0
            outputTokens := 0
            currentBatchSize := 0
            emitted := E ++ [(RS.UsageHandler.sumFst (p ++ [(i, o)]),
              RS.UsageHandler.sumSnd (p ++ [(i, o)]))] } := by
          unfold RS.UsageHandler.saveUsage
          rw [hx]
          simp only [RS.UsageHandler.USAGE_BATCH_SIZE]
          rw [if_pos hfull]
          simp [RS.UsageHandler.flush, hsum1, hsum2]
        rw [hstep]
        have hih := ih (E ++ [(RS.UsageHandler.sumFst (p ++ [(i, o)]),
              RS.UsageHandler.sumSnd (p ++ [(i, o)]))]) [] (by simp)
        simp only [show RS.UsageHandler.sumFst [] = 0 from rfl,
          show RS.UsageHandler.sumSnd [] = 0 from rfl,
          List.length_nil, List.nil_append] at hih
        rw [hih]
        simp
      · have hlt : (p ++ [(i, o)]).length < 5 := by
          simp
          omega
        have hstep : RS.UsageHandler.saveUsage
            { inputTokens := RS.UsageHandler.sumFst p
              outputTokens := RS.UsageHandler.sumSnd p
              currentBatchSize := p.length
              emitted := E } m =
          { inputTokens := RS.UsageHandler.sumFst (p ++ [(i, o)])
            outputTokens := RS.UsageHandler.sumSnd (p ++ [(i, o)])
            currentBatchSize := (p ++ [(i, o)]).length
            emitted := E } := by
          unfold RS.UsageHandler.saveUsage
          rw [hx]
          simp only [RS.UsageHandler.USAGE_BATCH_SIZE]
          rw [if_neg hfull]
          simp [hsum1, hsum2]
        rw [hstep]
        rw [ih E (p ++ [(i, o)]) hlt]

/-- C8: over any upstream frame sequence, the usage handler emits
exactly one fire-and-forget `UPDATE_USAGE` per five recognized
`response.done` completion events, each carrying its batch's token
sums; a final `flush()` adds at most one more (exactly one when the
batch counter is non-zero, none when it is zero) carrying the residual
sums, and leaves both accumulators and the counter at zero. -/
theorem usageHandler_batching (ms : List JStr) :
    (RS.UsageHandler.processMsgs RS.UsageHandler.initU ms).emitted =
      RS.UsageHandler.chunkSums
        (ms.filterMap RS.UsageHandler.saveUsageExtract) ∧
    (RS.UsageHandler.processMsgs RS.UsageHandler.initU ms).emitted.length =
      (ms.filterMap RS.UsageHandler.saveUsageExtract).length / 5 ∧
    RS.UsageHandler.flush (RS.UsageHandler.processMsgs
        RS.UsageHandler.initU ms) =
      { inputTokens := 0, outputTokens := 0, currentBatchSize := 0,
        emitted := RS.UsageHandler.chunkSums
            (ms.filterMap RS.UsageHandler.saveUsageExtract) ++
          (if (ms.filterMap RS.UsageHandler.saveUsageExtract).length % 5 = 0
           then []
           else [(RS.UsageHandler.sumFst (RS.UsageHandler.residual
                    (ms.filterMap RS.UsageHandler.saveUsageExtract)),
                  RS.UsageHandler.sumSnd (RS.UsageHandler.residual
                    (ms.filterMap RS.UsageHandler.saveUsageExtract)))]) } := by
  have hchar := processMsgs_char ms [] [] (by simp)
  rw [show ({ inputTokens := RS.UsageHandler.sumFst []
              outputTokens := RS.UsageHandler.sumSnd []
              currentBatchSize := List.length ([] : List (Nat × Nat))
              emitted := ([] : List (Nat × Nat)) } :
      RS.UsageHandler.UState) = RS.UsageHandler.initU from rfl] at hchar
  simp only [List.nil_append] at hchar
  rw [hchar]
  refine ⟨rfl, by simp [chunkSums_length], ?_⟩
  by_cases hmod :
      (ms.filterMap RS.UsageHandler.saveUsageExtract).length % 5 = 0
  · unfold RS.UsageHandler.flush
    rw [if_pos hmod]
    simp [hmod, residual_mod_zero _ hmod, RS.UsageHandler.sumFst,
      RS.UsageHandler.sumSnd]
  · unfold RS.UsageHandler.flush
    rw [if_neg hmod]
    simp [hmod]

/-- A test window that fits inside the left part of an append ignores
the right part. -/
theorem isPrefLC_append_left (pat l : JStr) (t : JStr)
    (h : pat.length ≤ l.length) :
    RS.isPrefLC pat (l ++ t) = RS.isPrefLC pat l := by
  induction pat generalizing l with
  | nil => cases l <;> rfl
  | cons a as ih =>
    cases l with
    | nil => simp at h
    | cons b l' =>
      simp only [List.cons_append, RS.isPrefLC, List.append_eq]
      rw [ih l' (by simpa using h)]

/-- Every list is an initial segment of itself extended. -/
theorem isPrefLC_self_append (l t : JStr) :
    RS.isPrefLC l (l ++ t) = true := by
  induction l with
  | nil => rfl
  | cons a l' ih => simp [RS.isPrefLC, ih]

/-- A successful window test at the head makes `findSub` return 0. -/
theorem findSub_of_isPref (pat s : JStr) (h : RS.isPrefLC pat s = true) :
    RS.findSub pat s = some 0 := by
  cases s with
  | nil => unfold RS.findSub; simp [h]
  | cons c s' => unfold RS.findSub; rw [if_pos h]

/-- The recursion step of `findSub` on a failed head test. -/
theorem findSub_cons_neg (pat : JStr) (c : Char) (s : JStr)
    (h : ¬ RS.isPrefLC pat (c :: s) = true) :
    RS.findSub pat (c :: s) = (RS.findSub pat s).map (· + 1) := by
  show (if RS.isPrefLC pat (c :: s) then some 0
        else (RS.findSub pat s).map (· + 1)) = _
  rw [if_neg h]

/-- `findSub` finds the first occurrence: when the pattern matches at
`k` inside the concrete head `P` and at no earlier position, the
search over `P ++ t` returns `k` for every tail `t`. -/
theorem findSub_append_first (pat P : JStr) (k : Nat)
    (hk : k + pat.length ≤ P.length)
    (hmatch : RS.isPrefLC pat (P.drop k) = true)
    (hno : ∀ i, i < k → RS.isPrefLC pat (P.drop i) = false) :
    ∀ t, RS.findSub pat (P ++ t) = some k := by
  induction k generalizing P with
  | zero =>
    intro t
    apply findSub_of_isPref
    rw [isPrefLC_append_left pat P t (by omega)]
    simpa using hmatch
  | succ k ih =>
    intro t
    cases P with
    | nil => simp at hk
    | cons c P' =>
      have hk' : k + pat.length ≤ P'.length := by
        simp only [List.length_cons] at hk
        omega
      have hcond : RS.isPrefLC pat (c :: (P' ++ t)) = false := by
        have hred := isPrefLC_append_left pat (c :: P') t
          (by simp only [List.length_cons] at hk ⊢; omega)
        rw [show (c :: P') ++ t = c :: (P' ++ t) from rfl] at hred
        rw [hred]
        simpa using hno 0 (Nat.succ_pos k)
      rw [show (c :: P') ++ t = c :: (P' ++ t) from rfl]
      unfold RS.findSub
      rw [if_neg (by simp [hcond])]
      rw [ih P' hk' (by simpa [List.drop_succ_cons] using hmatch)
        (fun i hi => by
          simpa [List.drop_succ_cons] using hno (i + 1) (by omega)) t]
      rfl

/-- A match anywhere makes `findSub` succeed. -/
theorem findSub_isSome_of_match (pat : JStr) (i : Nat) :
    ∀ s : JStr, RS.isPrefLC pat (s.drop i) = true →
      (RS.findSub pat s).isSome = true := by
  induction i with
  | zero =>
    intro s h
    rw [findSub_of_isPref pat s (by simpa using h)]
    rfl
  | succ i ih =>
    intro s h
    cases s with
    | nil =>
      rw [findSub_of_isPref pat [] (by simpa using h)]
      rfl
    | cons c s' =>
      unfold RS.findSub
      by_cases hc : RS.isPrefLC pat (c :: s') = true
      · rw [if_pos hc]; rfl
      · rw [if_neg hc]
        have := ih s' (by simpa using h)
        cases hfs : RS.findSub pat s' with
        | none => rw [hfs] at this; simp at this
        | some j => rfl

/-- Scanning for a character absent from the left part of an append
shifts the search into the right part. -/
theorem findSub_single_of_not_mem (c : Char) (l r : JStr)
    (h : c ∉ l) :
    RS.findSub [c] (l ++ r) =
      (RS.findSub [c] r).map (· + l.length) := by
  induction l with
  | nil =>
    simp only [List.nil_append, List.length_nil]
    cases RS.findSub [c] r <;> simp
  | cons a l' ih =>
    have hne : (c == a) = false := by
      simp only [beq_eq_false_iff_ne, ne_eq]
      intro hca
      exact h (hca ▸ List.mem_cons_self a l')
    rw [show (a :: l') ++ r = a :: (l' ++ r) from rfl]
    rw [findSub_cons_neg [c] a (l' ++ r) (by simp [RS.isPrefLC, hne])]
    rw [ih (fun hm => h (List.mem_cons_of_mem a hm))]
    cases RS.findSub [c] r with
    | none => rfl
    | some j => simp; omega

/-- Taking the left part of an append plus `n` more elements. -/
theorem take_append_add (l r : JStr) (n : Nat) :
    (l ++ r).take (l.length + n) = l ++ r.take n := by
  induction l with
  | nil => simp
  | cons a l' ih =>
    simp only [List.cons_append, List.length_cons]
    rw [show l'.length + 1 + n = (l'.length + n) + 1 from by omega]
    simp [List.take, ih]

/-- C10: on any transcript-delta frame whose JSON-encoded delta
carries an escaped double quote — frame shape
`pre ++ '"delta":"' ++ d1 ++ '\"' ++ d2` with the marker's first
occurrence at `pre.length` and no quote inside `d1`, classified as a
user or an agent transcript frame (the two families exhaust the
transcript-delta frames; the agent literal overrides the user one,
exactly as in the code) — `trackConversation` records exactly the
speaker tag followed by `d1 ++ '\'`: the extraction is the bounded
substring scan up to the first `'"'` after the marker, the fragment
sits in the buffer below the 200-character threshold and is flushed
into the `APPEND_CONVERSATION` payload at or above it, and in both
cases the recorded fragment is a strict prefix of the frame's full
delta payload. -/
theorem trackConversation_escaped_quote (pre d1 d2 : JStr)
    (ty : RS.CheckpointHandler.Speaker)
    (hq : '"' ∉ d1)
    (hfound : RS.findSub RS.CheckpointHandler.deltaLit
      (pre ++ (RS.CheckpointHandler.deltaLit ++ (d1 ++ '\\' :: '"' :: d2)))
      = some pre.length)
    (hty : (RS.containsLC
        (pre ++ (RS.CheckpointHandler.deltaLit ++ (d1 ++ '\\' :: '"' :: d2)))
        RS.CheckpointHandler.agentLit = true ∧
        ty = RS.CheckpointHandler.Speaker.agent) ∨
      (RS.containsLC
        (pre ++ (RS.CheckpointHandler.deltaLit ++ (d1 ++ '\\' :: '"' :: d2)))
        RS.CheckpointHandler.agentLit = false ∧
       RS.containsLC
        (pre ++ (RS.CheckpointHandler.deltaLit ++ (d1 ++ '\\' :: '"' :: d2)))
        RS.CheckpointHandler.userLit = true ∧
        ty = RS.CheckpointHandler.Speaker.user)) :
    RS.CheckpointHandler.trackConversation RS.CheckpointHandler.initC
        (pre ++ (RS.CheckpointHandler.deltaLit ++ (d1 ++ '\\' :: '"' :: d2)))
      =
      (if RS.CheckpointHandler.CONVERSATION_BUFFER_THRESHOLD ≤
          d1.length + 1 then
        { conversationBuffer := []
          conversationBufferLength := 0
          currentConvType := none
          appended := [RS.CheckpointHandler.speakerStr ty ++
            ':' :: (d1 ++ ['\\'])] }
      else
        { conversationBuffer := [RS.CheckpointHandler.speakerStr ty ++
            ':' :: (d1 ++ ['\\'])]
          conversationBufferLength := d1.length + 1
          currentConvType := some ty
          appended := [] }) ∧
    RS.isPrefLC (d1 ++ ['\\']) (d1 ++ '\\' :: '"' :: d2) = true ∧
    (d1 ++ ['\\']) ≠ (d1 ++ '\\' :: '"' :: d2) := by
  have hdrop : (pre ++ (RS.CheckpointHandler.deltaLit ++
      (d1 ++ '\\' :: '"' :: d2))).drop (pre.length + 9) =
      d1 ++ '\\' :: '"' :: d2 := by
    rw [show pre ++ (RS.CheckpointHandler.deltaLit ++
        (d1 ++ '\\' :: '"' :: d2)) =
      (pre ++ RS.CheckpointHandler.deltaLit) ++ (d1 ++ '\\' :: '"' :: d2)
      from by simp]
    rw [show pre.length + 9 =
        (pre ++ RS.CheckpointHandler.deltaLit).length from by
      simp [RS.CheckpointHandler.deltaLit]]
    exact List.drop_left _ _
  have hquote : RS.findSub ['"'] (d1 ++ '\\' :: '"' :: d2) =
      some (d1.length + 1) := by
    rw [findSub_single_of_not_mem '"' d1 _ hq]
    have h1 : RS.findSub ['"'] ('\\' :: '"' :: d2) = some 1 := by
      unfold RS.findSub
      rw [if_neg (by simp [RS.isPrefLC])]
      unfold RS.findSub
      rw [if_pos (by simp [RS.isPrefLC])]
      rfl
    rw [h1]
    simp [Nat.add_comm]
  have harith : d1.length + 1 + (pre.length + 9) - (pre.length + 9) =
      d1.length + 1 := by omega
  have htake : (d1 ++ ('\\' :: '"' :: d2)).take (d1.length + 1) =
      d1 ++ ['\\'] := by
    rw [take_append_add d1 _ 1]
    rfl
  have hdelta : RS.CheckpointHandler.extractDelta
      (pre ++ (RS.CheckpointHandler.deltaLit ++ (d1 ++ '\\' :: '"' :: d2)))
      = some (d1 ++ ['\\']) := by
    simp only [RS.CheckpointHandler.extractDelta, hfound, RS.findSubFrom,
      hdrop, hquote, Option.map_some, Option.map_some', RS.sliceLC, harith,
      htake]
  have hne : (d1 ++ ['\\']).isEmpty = false := by
    simp [List.isEmpty_iff]
  refine ⟨?_, ?_, ?_⟩
  · unfold RS.CheckpointHandler.trackConversation
    by_cases hth : RS.CheckpointHandler.CONVERSATION_BUFFER_THRESHOLD ≤
        d1.length + 1
    · rcases hty with ⟨hA, rfl⟩ | ⟨hNA, hU, rfl⟩
      · simp [hA, hdelta, hne, RS.CheckpointHandler.initC, hth,
          RS.CheckpointHandler.flush]
      · simp [hNA, hU, hdelta, hne, RS.CheckpointHandler.initC, hth,
          RS.CheckpointHandler.flush]
    · rcases hty with ⟨hA, rfl⟩ | ⟨hNA, hU, rfl⟩
      · simp [hA, hdelta, hne, RS.CheckpointHandler.initC, hth]
      · simp [hNA, hU, hdelta, hne, RS.CheckpointHandler.initC, hth]
  · rw [show d1 ++ '\\' :: '"' :: d2 = (d1 ++ ['\\']) ++ ('"' :: d2)
      from by simp]
    exact isPrefLC_self_append _ _
  · intro hcontra
    have := congrArg List.length hcontra
    simp at this

/-- Witness for C10: a concrete user transcript frame whose delta is
`he said \"ok\"` — the recorded fragment stops at the escaped quote;
its 9 characters are below the threshold, so it sits in the buffer. -/
theorem trackConversation_escaped_quote_witness :
    RS.CheckpointHandler.trackConversation RS.CheckpointHandler.initC
        ("\x7b\"type\":\"conversation.item.input_audio_transcription.delta\",".toList
          ++ (RS.CheckpointHandler.deltaLit ++
            ("he said ".toList ++ '\\' :: '"' :: "ok\\\"\"\x7d".toList)))
      =
      (if RS.CheckpointHandler.CONVERSATION_BUFFER_THRESHOLD ≤
          "he said ".toList.length + 1 then
        { conversationBuffer := []
          conversationBufferLength := 0
          currentConvType := none
          appended := [RS.CheckpointHandler.speakerStr
            RS.CheckpointHandler.Speaker.user ++
            ':' :: ("he said ".toList ++ ['\\'])] }
      else
        { conversationBuffer := [RS.CheckpointHandler.speakerStr
            RS.CheckpointHandler.Speaker.user ++
            ':' :: ("he said ".toList ++ ['\\'])]
          conversationBufferLength := "he said ".toList.length + 1
          currentConvType := some RS.CheckpointHandler.Speaker.user
          appended := [] }) ∧
    RS.isPrefLC ("he said ".toList ++ ['\\'])
      ("he said ".toList ++ '\\' :: '"' :: "ok\\\"\"\x7d".toList) = true ∧
    ("he said ".toList ++ ['\\']) ≠
      ("he said ".toList ++ '\\' :: '"' :: "ok\\\"\"\x7d".toList) :=
  trackConversation_escaped_quote
    "\x7b\"type\":\"conversation.item.input_audio_transcription.delta\",".toList
    "he said ".toList "ok\\\"\"\x7d".toList
    RS.CheckpointHandler.Speaker.user
    (by decide) (by decide) (Or.inr ⟨by decide, by decide, rfl⟩)

/-- C5 (counterexample): the claim (following the spec's "if `raw`
contains `"type":"session.updated"`") asserts that, with
`skipSessionSave` set, the next frame carrying the `session.updated`
type is swallowed and clears the flag.  The concrete frame
`{"event_id":"e1","type":"session.updated"}` carries that type marker,
yet `saveSessionIfNeeded` — which tests `startsWith`, not containment —
leaves the flag set and persists nothing. -/
theorem saveSessionIfNeeded_contains_insufficient :
    RS.containsLC "\x7b\"event_id\":\"e1\",\"type\":\"session.updated\"\x7d".toList
      "\"type\":\"session.updated\"".toList = true ∧
    (RS.Orchestrator.saveSessionIfNeeded
      (RS.Orchestrator.mkOrchestrator "acc" "sess" ['x'] 10)
      "\x7b\"event_id\":\"e1\",\"type\":\"session.updated\"\x7d".toList).skipSessionSave
      = true ∧
    (RS.Orchestrator.saveSessionIfNeeded
      (RS.Orchestrator.mkOrchestrator "acc" "sess" ['x'] 10)
      "\x7b\"event_id\":\"e1\",\"type\":\"session.updated\"\x7d".toList).savedSessions
      = [] := by
  refine ⟨by decide, by decide, by decide⟩

/-- C5 (amended): with "carrying" read as the code's
`startsWith('{"type":"session.updated"')` test: `skipSessionSave` is
set at construction exactly when the preloaded session data is
non-empty and is set by `onClose`; while set, the next frame starting
with the `session.updated` literal only clears the flag (nothing is
persisted); while clear, every such frame triggers exactly one
fire-and-forget `SAVE_SESSION(accountId, sessionId, raw)` with the raw
frame; frames not starting with the literal change nothing. -/
theorem skipSessionSave_oneshot (aid sid : String) (d : JStr) (cr : Int)
    (st : RS.Orchestrator.OState) (m : JStr) :
    ((RS.Orchestrator.mkOrchestrator aid sid d cr).skipSessionSave = true ↔
      d ≠ []) ∧
    ((RS.Orchestrator.onClose st).skipSessionSave = true) ∧
    (RS.startsWithLC m RS.Orchestrator.sessionUpdatedLit = true →
      st.skipSessionSave = true →
      RS.Orchestrator.saveSessionIfNeeded st m =
        { st with skipSessionSave := false }) ∧
    (RS.startsWithLC m RS.Orchestrator.sessionUpdatedLit = true →
      st.skipSessionSave = false →
      RS.Orchestrator.saveSessionIfNeeded st m =
        { st with savedSessions :=
            st.savedSessions ++ [(st.accountId, st.sessionId, m)] }) ∧
    (RS.startsWithLC m RS.Orchestrator.sessionUpdatedLit = false →
      RS.Orchestrator.saveSessionIfNeeded st m = st) := by
  refine ⟨?_, rfl, ?_, ?_, ?_⟩
  · simp [RS.Orchestrator.mkOrchestrator, List.length_pos]
  · intro h1 h2
    simp [RS.Orchestrator.saveSessionIfNeeded, h1, h2]
  · intro h1 h2
    simp [RS.Orchestrator.saveSessionIfNeeded, h1, h2]
  · intro h1
    simp [RS.Orchestrator.saveSessionIfNeeded, h1]

/-- Witness for C5's amended theorem: a set flag is cleared by a frame
starting with the `session.updated` literal, and from a clear flag the
same frame is persisted once. -/
theorem skipSessionSave_oneshot_witness :
    RS.Orchestrator.saveSessionIfNeeded
        (RS.Orchestrator.mkOrchestrator "a" "s" ['x'] 5)
        "\x7b\"type\":\"session.updated\",\"session\":\x7b\x7d\x7d".toList =
      { RS.Orchestrator.mkOrchestrator "a" "s" ['x'] 5 with
        skipSessionSave := false } :=
  (skipSessionSave_oneshot "a" "s" ['x'] 5
      (RS.Orchestrator.mkOrchestrator "a" "s" ['x'] 5)
      "\x7b\"type\":\"session.updated\",\"session\":\x7b\x7d\x7d".toList).2.2.1
    (by decide) (by decide)

end RS.Claims




